import Mathlib

/-!
# PoDoFo `PdfSimpleWriter`: page tree and font cache

A shallow embedding of `src/PdfSimpleWriter.cpp` (`Init`, `CreatePage`, `CreateFont`,
`CreateImage`, `FontComperator`) and `src/PdfArray.h`, followed by the theorems about the
page-tree root, the font cache and the references stored in the object store.

Conventions of the embedding.

* A C++ pointer to an object owned by the object store (`PdfObject*`, `PdfPage*`, `PdfFont*`,
  `PdfImage*`) is the `PdfReference` of the object it points to; `NULL` is `none`.
  `p->AddKey(..)` rewrites the object of that reference inside the store.
* Dereferencing a `NULL` member (`m_pPageTree`, `GetCatalog()`, `GetInfo()`) has no defined
  result; the functions that do so return `Option`, with `none` for that case.
* `delete p` destroys the object `p` points to. The store vector is not told: it keeps the
  pointer, which dangles. The store records such pointers in `deleted` and has no object for
  them.
* What the collaborators that are not part of the writer decide (does FreeType start, does the
  base writer start, does a page or font initializer succeed and how many objects does it take
  from the store, where does `new` place a font, what the date is) is an argument of the call.
* `m_nPageTreeSize` and the object counter of the store are declared in headers that are not
  among the sources; as in the spec they are integers without a bound, natural numbers here.
-/

namespace PoDoFo

/-! ## Values: `PdfReference`, `PdfVariant`, `PdfArray` -/

/-- Object number and generation number of an indirect object. -/
structure PdfReference where
  m_nObjectNo : Nat
  m_nGenerationNo : Nat
deriving DecidableEq

/-- Modelled from the spec: `PdfReference::ToString` (PdfReference.h is not among the sources),
the PDF spelling `<object number> <generation number> R` of an indirect reference. -/
def PdfReference.ToString (r : PdfReference) : String :=
  Nat.repr r.m_nObjectNo ++ " " ++ Nat.repr r.m_nGenerationNo ++ " R"

/-- The kind tags `ePdfDataType_*` of a variant (spec section 3; Real and Dictionary carry no
payload the writer touches and are left out). -/
inductive EPdfDataType where
  | Null | Bool | Number | String | Name | Array | Reference
deriving DecidableEq

/-- Modelled from the spec: `PdfVariant` (PdfVariant.h is not among the sources), a closed
tagged union whose kind and payload always agree. The payload of an array is a `PdfArray`,
which `src/PdfArray.h` declares as `std::vector<PdfVariant>`. -/
inductive PdfVariant where
  | null
  | bool (b : Bool)
  | number (n : Int)
  | string (s : String)
  | name (s : String)
  | array (l : List PdfVariant)
  | reference (r : PdfReference)

/-- The class `PdfArray : public std::vector<PdfVariant>` of `src/PdfArray.h`. -/
abbrev PdfArray := List PdfVariant

/-- The alias `TVariantList` of `PdfArray`. -/
abbrev TVariantList := PdfArray

/-- Modelled from the spec: `PdfVariant::SetDataType`; the variant takes the given kind, with
the empty payload of that kind. -/
def PdfVariant.SetDataType (_var : PdfVariant) : EPdfDataType → PdfVariant
  | .Null => .null
  | .Bool => .bool false
  | .Number => .number 0
  | .String => .string ""
  | .Name => .name ""
  | .Array => .array []
  | .Reference => .reference ⟨0, 0⟩

/-- Modelled from the spec: `PdfVariant::SetReference`; it replaces the payload of a variant of
kind Reference and does nothing to a variant of another kind. -/
def PdfVariant.SetReference (var : PdfVariant) (r : PdfReference) : PdfVariant :=
  match var with
  | .reference _ => .reference r
  | other => other

/-- Modelled from the spec: `PdfVariant::SetArray`; it replaces the payload of a variant of
kind Array and does nothing to a variant of another kind. -/
def PdfVariant.SetArray (var : PdfVariant) (l : TVariantList) : PdfVariant :=
  match var with
  | .array _ => .array l
  | other => other

/-- Value of a non-empty run of decimal digits. -/
def parseNumber (cs : List Char) : Option Nat :=
  if cs ≠ [] ∧ cs.all Char.isDigit = true then
    some (cs.foldl (fun acc c => 10 * acc + (c.toNat - 48)) 0)
  else none

/-- Modelled from the spec: `PdfVariant::Init(const char*)` (PdfVariant.cpp is not among the
sources), the reading of PDF text as a value, for the spellings the writer passes: a
non-negative Integer, a Reference `n g R`, and the empty Array `[ ]`. Other text is not read. -/
def PdfVariant.Init (pszData : String) : Option PdfVariant :=
  match parseNumber pszData.data with
  | some n => some (.number n)
  | none =>
    match (pszData.data.splitOn ' ').filter (fun tok => tok ≠ []) with
    | [['['], [']']] => some (.array [])
    | [a, b, ['R']] =>
      match parseNumber a, parseNumber b with
      | some n, some g => some (.reference ⟨n, g⟩)
      | _, _ => none
    | _ => none

mutual
/-- All references that occur in a value, the entries of arrays included. -/
def PdfVariant.references : PdfVariant → List PdfReference
  | .reference r => [r]
  | .array l => PdfVariant.referencesOfList l
  | _ => []
/-- The references that occur in the entries of an array. -/
def PdfVariant.referencesOfList : List PdfVariant → List PdfReference
  | [] => []
  | v :: vs => v.references ++ PdfVariant.referencesOfList vs
end

/-! ## `PdfObject` and the object store `PdfVecObjects` -/

/-- Modelled from the spec: `PdfObject` (PdfObject.h is not among the sources), an indirect
object: its identity and an ordered mapping from key names to variants. -/
structure PdfObject where
  m_reference : PdfReference
  m_mapKeys : List (String × PdfVariant)

/-- The accessor `pObj->Reference()`. -/
def PdfObject.Reference (o : PdfObject) : PdfReference := o.m_reference

/-- The value stored under a key, if any. -/
def PdfObject.GetKey (o : PdfObject) (key : String) : Option PdfVariant :=
  o.m_mapKeys.lookup key

/-- Modelled from the spec: `PdfObject::AddKey(const PdfName&, const PdfVariant&)`, a key-set
operation: a value already stored under the key is replaced. -/
def PdfObject.AddKey (o : PdfObject) (key : String) (value : PdfVariant) : PdfObject :=
  { o with m_mapKeys := (key, value) :: o.m_mapKeys.filter (fun kv => kv.1 ≠ key) }

/-- Modelled from the spec: `PdfObject::AddKey(const PdfName&, const char*)`; the text is PDF
syntax and the key receives the value it spells. Text that is not read leaves the object as it
is (the writer ignores the result of `AddKey`). -/
def PdfObject.AddKeyText (o : PdfObject) (key : String) (pszValue : String) : PdfObject :=
  match PdfVariant.Init pszValue with
  | some value => o.AddKey key value
  | none => o

/-- Modelled from the spec: `PdfObject::AddKey(const PdfName&, const PdfString&)`. -/
def PdfObject.AddKeyString (o : PdfObject) (key : String) (rValue : String) : PdfObject :=
  o.AddKey key (.string rValue)

/-- Modelled from the spec: `PdfObject::AddKey(const PdfName&, const PdfReference&)`. -/
def PdfObject.AddKeyReference (o : PdfObject) (key : String) (rValue : PdfReference) :
    PdfObject :=
  o.AddKey key (.reference rValue)

/-- Modelled from the spec: `PdfVecObjects` (PdfVecObjects.h is not among the sources), the
owner of all indirect objects, a vector of `PdfObject*`. `m_vec` holds the objects its pointers
point to, in creation order, `m_nObjectCount` is the next unused object number, and `deleted`
lists the pointers the vector still holds whose object was destroyed with `delete`: they
dangle, there is no object to read behind them. -/
structure PdfVecObjects where
  m_vec : List PdfObject
  m_nObjectCount : Nat
  deleted : List PdfReference

/-- Modelled from the spec: `PdfVecObjects::CreateObject(const char* pszType)` and
`CreateObject<T>()` (section 4.2): the new object takes the next unused object number and
generation 0, is tagged with `/Type` when a type name is given, and is appended to the store.
The result is the store and the pointer to the new object. -/
def PdfVecObjects.CreateObject (vec : PdfVecObjects) (pszType : Option String) :
    PdfVecObjects × PdfReference :=
  let ref : PdfReference := ⟨vec.m_nObjectCount, 0⟩
  let keys : List (String × PdfVariant) :=
    match pszType with
    | some t => [("Type", .name t)]
    | none => []
  ({ vec with
      m_vec := vec.m_vec ++ [⟨ref, keys⟩]
      m_nObjectCount := vec.m_nObjectCount + 1 }, ref)

/-- The object a pointer points to. -/
def PdfVecObjects.GetObject (vec : PdfVecObjects) (p : PdfReference) : Option PdfObject :=
  vec.m_vec.find? (fun o => decide (o.m_reference = p))

/-- The effect of `p->f(..)` on the store: the object `p` points to is rewritten by `f`. -/
def PdfVecObjects.modify (vec : PdfVecObjects) (p : PdfReference) (f : PdfObject → PdfObject) :
    PdfVecObjects :=
  { vec with m_vec := vec.m_vec.map (fun o => if o.m_reference = p then f o else o) }

/-- The effect of `delete p` on the store, `p` pointing to one of its objects: the object is
destroyed, and the vector, from which nothing is erased, keeps a pointer that dangles. -/
def PdfVecObjects.delete (vec : PdfVecObjects) (p : PdfReference) : PdfVecObjects :=
  { vec with
    m_vec := vec.m_vec.filter (fun o => o.m_reference ≠ p)
    deleted := vec.deleted ++ [p] }

/-- A reference names an object of the store. -/
def PdfVecObjects.Contains (vec : PdfVecObjects) (r : PdfReference) : Prop :=
  ∃ o ∈ vec.m_vec, o.m_reference = r

instance (vec : PdfVecObjects) (r : PdfReference) : Decidable (vec.Contains r) := by
  unfold PdfVecObjects.Contains; infer_instance

/-- The store after `n` further untyped objects were created through it. -/
def PdfVecObjects.createMany (vec : PdfVecObjects) : Nat → PdfVecObjects
  | 0 => vec
  | n + 1 => (vec.CreateObject none).1.createMany n

/-! ## The writer -/

/-- The error codes the writer sees: none, FreeType did not start, or a code of the base
writer. -/
inductive EPdfError where
  | ErrOk
  | FreeType
  | Other (code : Nat)
deriving DecidableEq

/-- Severities of `PdfError::LogMessage`. -/
inductive ELogSeverity where
  | Critical
  | Error
deriving DecidableEq

/-- Calls into collaborators that leave a mark outside the writer: a font-metrics load
(`new PdfFontMetrics(&m_ftLibrary, path)`) and a diagnostic about a font name. -/
inductive Effect where
  | LoadMetrics (path : String)
  | LogMessage (severity : ELogSeverity) (fontName : String)
deriving DecidableEq

/-- Page dimensions, `TSize`. -/
structure TSize where
  lWidth : Int
  lHeight : Int
deriving DecidableEq

/-- Modelled from the spec: what `PdfPage::Init` and `PdfFont::Init` (not among the sources)
did in one call: whether the returned `PdfError` is an error, and how many objects the
initializer created through the store it was handed. The keys an initializer writes on its
own object are outside the writer and are not part of the model. -/
structure InitOutcome where
  IsError : Bool
  nObjects : Nat
deriving DecidableEq

/-- An entry of `m_vecFonts`: the `PdfFont*`, with what the writer reads through it, the file
name of its metrics (`FontMetrics()->Filename()`), and the pointer value itself, by which
`std::sort` orders the vector. -/
structure PdfFont where
  m_reference : PdfReference
  m_pMetrics : String
  address : Nat
deriving DecidableEq

/-- Modelled from the spec: the members of `PdfSimpleWriter` that PdfSimpleWriter.cpp uses,
with those of its base `PdfWriter` (the class declarations, PdfSimpleWriter.h and PdfWriter.h, are
not among the sources). The page count `m_nPageTreeSize` is an integer without a bound, as in
the spec. `effects` records the calls into collaborators that leave a mark outside the
writer. -/
structure PdfSimpleWriter where
  m_vecObjects : PdfVecObjects
  m_pCatalog : Option PdfReference
  m_pInfo : Option PdfReference
  m_pPageTree : Option PdfReference
  m_nPageTreeSize : Nat
  m_bInitDone : Bool
  m_vecPageReferences : List PdfReference
  m_vecFonts : List PdfFont
  effects : List Effect

/-- The constructor `PdfSimpleWriter::PdfSimpleWriter()`: no page tree, size 0, not
initialised; the store is empty and numbers objects from 1. -/
def PdfSimpleWriter.new : PdfSimpleWriter :=
  { m_vecObjects := ⟨[], 1, []⟩
    m_pCatalog := none
    m_pInfo := none
    m_pPageTree := none
    m_nPageTreeSize := 0
    m_bInitDone := false
    m_vecPageReferences := []
    m_vecFonts := []
    effects := [] }

/-- Modelled from the spec: `PdfWriter::Init` (the base writer, not among the sources), which
prepares the Catalog and Info objects in the store or fails with its own error code. -/
def PdfWriter.Init (w : PdfSimpleWriter) (baseError : EPdfError) :
    EPdfError × PdfSimpleWriter :=
  if baseError ≠ .ErrOk then (baseError, w)
  else
    let (vec1, pCatalog) := w.m_vecObjects.CreateObject (some "Catalog")
    let (vec2, pInfo) := vec1.CreateObject none
    (.ErrOk,
      { w with m_vecObjects := vec2, m_pCatalog := some pCatalog, m_pInfo := some pInfo })

/-- The method `PdfSimpleWriter::Init`. `ftFailed` is the result of `FT_Init_FreeType`,
`baseError` what `PdfWriter::Init` returns, `sDate` the text `PdfDate::ToString` gives for the
current time. The result is the returned `PdfError` and the writer after the call. -/
def PdfSimpleWriter.Init (w : PdfSimpleWriter) (ftFailed : Bool) (baseError : EPdfError)
    (sDate : String) : Option (EPdfError × PdfSimpleWriter) :=
  let w := { w with m_bInitDone := true }
  if ftFailed then some (.FreeType, w)
  else
    let (eCode, w) := PdfWriter.Init w baseError
    if eCode ≠ .ErrOk then some (eCode, w)
    else do
      let (vec, pPageTree) := w.m_vecObjects.CreateObject (some "Pages")
      let vec := vec.modify pPageTree (fun o => o.AddKeyText "Kids" "[ ]")
      let pCatalog ← w.m_pCatalog
      let vec := vec.modify pCatalog (fun o => o.AddKeyText "Pages" pPageTree.ToString)
      let pInfo ← w.m_pInfo
      let vec := vec.modify pInfo (fun o => o.AddKeyString "Producer" "PoDoFo")
      let vec := vec.modify pInfo (fun o => o.AddKeyString "CreationDate" sDate)
      pure (.ErrOk, { w with m_vecObjects := vec, m_pPageTree := some pPageTree })

/-- The loop of `CreatePage` over `m_vecPageReferences`: each reference is put into `var` with
`SetReference` and `var` is pushed onto `array`. -/
def PdfSimpleWriter.pushReferences (var : PdfVariant) (array : TVariantList) :
    List PdfReference → PdfVariant × TVariantList
  | [] => (var, array)
  | r :: rest =>
    let var := var.SetReference r
    pushReferences var (array ++ [var]) rest

/-- The method `PdfSimpleWriter::CreatePage`. `init` is what
`pPage->Init( tSize, &m_vecObjects )` does. The result is the writer after the call and the
returned `PdfPage*`. -/
def PdfSimpleWriter.CreatePage (w : PdfSimpleWriter) (_tSize : TSize) (init : InitOutcome) :
    Option (PdfSimpleWriter × Option PdfReference) := do
  let var : PdfVariant := .null
  let array : TVariantList := []
  let (vec, pPage) := w.m_vecObjects.CreateObject none
  let m_vecPageReferences := w.m_vecPageReferences ++ [pPage]
  let m_nPageTreeSize := w.m_nPageTreeSize + 1
  let oStream := Nat.repr m_nPageTreeSize
  let var := var.SetDataType .Reference
  let (var, array) := pushReferences var array m_vecPageReferences
  let var := var.SetDataType .Array
  let var := var.SetArray array
  let pPageTree ← w.m_pPageTree
  let vec := vec.modify pPageTree (fun o => o.AddKeyText "Count" oStream)
  let vec := vec.modify pPageTree (fun o => o.AddKey "Kids" var)
  let vec := vec.modify pPage (fun o => o.AddKeyReference "Parent" pPageTree)
  let vec := vec.createMany init.nObjects
  let w := { w with
    m_vecObjects := vec
    m_vecPageReferences := m_vecPageReferences
    m_nPageTreeSize := m_nPageTreeSize }
  if init.IsError then
    let vec := vec.delete pPage
    pure ({ w with m_vecObjects := vec }, none)
  else
    pure (w, some pPage)

/-- The predicate `FontComperator( sPath )` applied to an entry of the font vector. -/
def FontComperator (m_sPath : String) (pFont : PdfFont) : Bool :=
  m_sPath == pFont.m_pMetrics

/-- The method `PdfSimpleWriter::CreateFont`. `GetFilenameForFont` is the font locator, `init`
what `pFont->Init( pMetrics, &m_vecObjects, bEmbedd )` does (it keeps `pMetrics` as the metrics
of the font), `address` where `new` places the font object. The result is the writer after the
call and the returned `PdfFont*`. -/
def PdfSimpleWriter.CreateFont (GetFilenameForFont : String → String) (w : PdfSimpleWriter)
    (pszFontName : String) (_bEmbedd : Bool) (init : InitOutcome) (address : Nat) :
    PdfSimpleWriter × Option PdfReference :=
  let sPath := GetFilenameForFont pszFontName
  if sPath.isEmpty then
    ({ w with effects := w.effects ++ [.LogMessage .Critical pszFontName] }, none)
  else
    match w.m_vecFonts.find? (FontComperator sPath) with
    | none =>
      let effects := w.effects ++ [.LoadMetrics sPath]
      let (vec, pFont) := w.m_vecObjects.CreateObject none
      let m_vecFonts := w.m_vecFonts ++ [⟨pFont, sPath, address⟩]
      let m_vecFonts := m_vecFonts.insertionSort (fun a b => a.address ≤ b.address)
      let vec := vec.createMany init.nObjects
      let w := { w with m_vecObjects := vec, m_vecFonts := m_vecFonts, effects := effects }
      if init.IsError then
        ({ w with effects := w.effects ++ [.LogMessage .Error pszFontName] }, none)
      else
        (w, some pFont)
    | some pFont => (w, some pFont.m_reference)

/-- The method `PdfSimpleWriter::CreateImage`. -/
def PdfSimpleWriter.CreateImage (w : PdfSimpleWriter) : PdfSimpleWriter × Option PdfReference :=
  let (vec, pImage) := w.m_vecObjects.CreateObject none
  ({ w with m_vecObjects := vec }, some pImage)

/-! ## Sequences of calls -/

/-- One call of the writer after `Init`, with what its collaborators do during the call. -/
inductive Call where
  | CreatePage (tSize : TSize) (init : InitOutcome)
  | CreateFont (pszFontName : String) (bEmbedd : Bool) (init : InitOutcome) (address : Nat)
  | CreateImage
deriving DecidableEq

/-- The call creates a page. -/
def Call.isCreatePage : Call → Bool
  | .CreatePage _ _ => true
  | _ => false

/-- The writer after one call, and the pointer the call returns. -/
def PdfSimpleWriter.call (GetFilenameForFont : String → String) (w : PdfSimpleWriter) :
    Call → Option (PdfSimpleWriter × Option PdfReference)
  | .CreatePage tSize init => w.CreatePage tSize init
  | .CreateFont pszFontName bEmbedd init address =>
    some (w.CreateFont GetFilenameForFont pszFontName bEmbedd init address)
  | .CreateImage => some w.CreateImage

/-- The writer after a sequence of calls, and the pointers the calls return, in call order. -/
def PdfSimpleWriter.run (GetFilenameForFont : String → String) (w : PdfSimpleWriter) :
    List Call → Option (PdfSimpleWriter × List (Option PdfReference))
  | [] => some (w, [])
  | c :: cs => do
    let (w1, r) ← w.call GetFilenameForFont c
    let (w2, rs) ← w1.run GetFilenameForFont cs
    pure (w2, r :: rs)

/-- The page-tree root object of the writer, when there is one. -/
def PdfSimpleWriter.pageTree (w : PdfSimpleWriter) : Option PdfObject :=
  w.m_pPageTree.bind w.m_vecObjects.GetObject

/-! ## Well-formedness of the writer -/

/-- Every reference stored in an object of the store names an object of the store. -/
def PdfVecObjects.WellReferenced (vec : PdfVecObjects) : Prop :=
  ∀ o ∈ vec.m_vec, ∀ kv ∈ o.m_mapKeys, ∀ r ∈ kv.2.references, vec.Contains r

/-- Every object of the store has an object number below the next unused one. -/
def PdfVecObjects.Fresh (vec : PdfVecObjects) : Prop :=
  ∀ o ∈ vec.m_vec, o.m_reference.m_nObjectNo < vec.m_nObjectCount

/-- The page `p` is an object of the store and holds the reference `root` under Parent. -/
def PdfVecObjects.PageOf (vec : PdfVecObjects) (root p : PdfReference) : Prop :=
  ∃ o, vec.GetObject p = some o ∧ o.GetKey "Parent" = some (.reference root)

/-- What `Init` establishes and every later call keeps, `root` being the page-tree root: the
objects of the store have object numbers below the next unused one; the root holds the
tracked page references as its Kids and, once there is a page, their number as its Count (and
no Count before); the Catalog has the root as Pages. -/
structure PdfSimpleWriter.Consistent (w : PdfSimpleWriter) (root : PdfReference) : Prop where
  pageTree : w.m_pPageTree = some root
  size : w.m_nPageTreeSize = w.m_vecPageReferences.length
  fresh : w.m_vecObjects.Fresh
  kids : ∃ o, w.m_vecObjects.GetObject root = some o ∧
    o.GetKey "Kids" = some (.array (w.m_vecPageReferences.map PdfVariant.reference))
  noCount : w.m_vecPageReferences = [] → ∀ o, w.m_vecObjects.GetObject root = some o →
    o.GetKey "Count" = none
  count : w.m_vecPageReferences ≠ [] → ∃ o, w.m_vecObjects.GetObject root = some o ∧
    o.GetKey "Count" = some (.number (w.m_vecPageReferences.length : Nat))
  catalog : ∃ cat o, w.m_pCatalog = some cat ∧ w.m_vecObjects.GetObject cat = some o ∧
    o.GetKey "Pages" = some (.reference root)

/-! ## Example data -/

/-- A font locator for the examples: two spellings that resolve to one font file; every other
name is not resolved. -/
def exampleLocator (name : String) : String :=
  if name = "Arial" ∨ name = "ArialMT" then "/fonts/arial.ttf" else ""

/-- The writer of the examples: a new writer on which `Init` succeeded at the date
`D:20060101120000`. The Catalog is object 1, the Info object 2, the page-tree root object 3. -/
def exampleWriter : PdfSimpleWriter :=
  { m_vecObjects :=
      ⟨[⟨⟨1, 0⟩, [("Pages", .reference ⟨3, 0⟩), ("Type", .name "Catalog")]⟩,
        ⟨⟨2, 0⟩,
          [("CreationDate", .string "D:20060101120000"), ("Producer", .string "PoDoFo")]⟩,
        ⟨⟨3, 0⟩, [("Kids", .array []), ("Type", .name "Pages")]⟩], 4, []⟩
    m_pCatalog := some ⟨1, 0⟩
    m_pInfo := some ⟨2, 0⟩
    m_pPageTree := some ⟨3, 0⟩
    m_nPageTreeSize := 0
    m_bInitDone := true
    m_vecPageReferences := []
    m_vecFonts := []
    effects := [] }

/-- The page size of the examples, A4 in points. -/
def exampleA4 : TSize := ⟨595, 842⟩

/-! # Lemmas -/

theorem digitChar_isDigit (k : Nat) (h : k < 10) :
    (Nat.digitChar k).isDigit = true ∧ (Nat.digitChar k).toNat - 48 = k := by
  interval_cases k <;> decide

theorem toDigitsCore_spec (fuel : Nat) : ∀ (n : Nat) (ds : List Char), n < fuel →
    ∃ pre : List Char, Nat.toDigitsCore 10 fuel n ds = pre ++ ds ∧ pre ≠ [] ∧
      pre.all Char.isDigit = true ∧
      ∀ acc : Nat, pre.foldl (fun acc c => 10 * acc + (c.toNat - 48)) acc = acc * 10 ^ pre.length + n := by
  induction fuel with
  | zero => intro n ds h; omega
  | succ fuel ih =>
    intro n ds h
    have hd := digitChar_isDigit (n % 10) (Nat.mod_lt _ (by decide))
    by_cases h0 : n / 10 = 0
    · refine ⟨[Nat.digitChar (n % 10)], ?_, by simp, ?_, ?_⟩
      · simp [Nat.toDigitsCore, h0]
      · simp [hd.1]
      · intro acc
        simp only [List.foldl, List.length_singleton, pow_one, hd.2]
        have : n % 10 = n := Nat.mod_eq_of_lt (by omega)
        omega
    · have hlt : n / 10 < fuel := by omega
      obtain ⟨pre, hpre, hne, hall, hval⟩ := ih (n / 10) (Nat.digitChar (n % 10) :: ds) hlt
      refine ⟨pre ++ [Nat.digitChar (n % 10)], ?_, by simp, ?_, ?_⟩
      · simp [Nat.toDigitsCore, h0, hpre]
      · simp [List.all_append, hall, hd.1]
      · intro acc
        rw [List.foldl_append, hval acc]
        simp only [List.foldl, List.length_append, List.length_singleton, hd.2, pow_succ]
        have := Nat.div_add_mod n 10
        ring_nf
        omega

theorem parseNumber_repr (n : Nat) : parseNumber (Nat.repr n).data = some n := by
  obtain ⟨pre, hpre, hne, hall, hval⟩ := toDigitsCore_spec (n + 1) n [] (Nat.lt_succ_self n)
  have hdata : (Nat.repr n).data = pre := by
    simp [Nat.repr, Nat.toDigits, hpre, List.asString]
  rw [hdata, parseNumber, if_pos ⟨hne, hall⟩, hval 0]
  simp

theorem Init_repr (n : Nat) : PdfVariant.Init (Nat.repr n) = some (.number n) := by
  simp [PdfVariant.Init, parseNumber_repr]

/-! ### Keys of an object -/

theorem lookup_filter_ne (key k : String) (h : k ≠ key) (l : List (String × PdfVariant)) :
    (l.filter (fun kv => kv.1 ≠ key)).lookup k = l.lookup k := by
  induction l with
  | nil => rfl
  | cons kv rest ih =>
    obtain ⟨a, v⟩ := kv
    by_cases ha : a = key
    · subst ha
      have hk : (k == a) = false := by simpa using h
      simpa [List.filter, List.lookup, hk] using ih
    · by_cases hka : k = a
      · subst hka
        simp [List.filter, ha, List.lookup]
      · have hk : (k == a) = false := by simpa using hka
        simpa [List.filter, ha, List.lookup, hk] using ih

theorem GetKey_AddKey_self (o : PdfObject) (key : String) (v : PdfVariant) :
    (o.AddKey key v).GetKey key = some v := by
  simp [PdfObject.AddKey, PdfObject.GetKey, List.lookup]

theorem GetKey_AddKey_other (o : PdfObject) (key k : String) (v : PdfVariant) (h : k ≠ key) :
    (o.AddKey key v).GetKey k = o.GetKey k := by
  have hk : (k == key) = false := by simpa using h
  simp only [PdfObject.AddKey, PdfObject.GetKey, List.lookup, hk]
  exact lookup_filter_ne key k h _

theorem AddKey_reference (o : PdfObject) (key : String) (v : PdfVariant) :
    (o.AddKey key v).m_reference = o.m_reference := rfl

theorem AddKeyText_repr (o : PdfObject) (key : String) (n : Nat) :
    o.AddKeyText key (Nat.repr n) = o.AddKey key (.number n) := by
  simp [PdfObject.AddKeyText, Init_repr]

/-! ### Objects of the store -/

theorem GetObject_reference (vec : PdfVecObjects) (p : PdfReference) (o : PdfObject)
    (h : vec.GetObject p = some o) : o.m_reference = p := by
  have := List.find?_some h
  simpa using this

theorem GetObject_mem (vec : PdfVecObjects) (p : PdfReference) (o : PdfObject)
    (h : vec.GetObject p = some o) : o ∈ vec.m_vec :=
  List.mem_of_find?_eq_some h

theorem find_map_self (p : PdfReference) (f : PdfObject → PdfObject)
    (hf : ∀ o, (f o).m_reference = o.m_reference) (l : List PdfObject) :
    (l.map (fun o => if o.m_reference = p then f o else o)).find?
        (fun o => decide (o.m_reference = p))
      = (l.find? (fun o => decide (o.m_reference = p))).map f := by
  induction l with
  | nil => rfl
  | cons a rest ih =>
    by_cases ha : a.m_reference = p
    · simp [List.find?, ha, hf]
    · simp [List.find?, ha, ih]

theorem find_map_other (p q : PdfReference) (hq : q ≠ p) (f : PdfObject → PdfObject)
    (hf : ∀ o, (f o).m_reference = o.m_reference) (l : List PdfObject) :
    (l.map (fun o => if o.m_reference = p then f o else o)).find?
        (fun o => decide (o.m_reference = q))
      = l.find? (fun o => decide (o.m_reference = q)) := by
  induction l with
  | nil => rfl
  | cons a rest ih =>
    simp only [List.map_cons, List.find?_cons]
    by_cases ha : a.m_reference = p
    · have h1 : ¬ (f a).m_reference = q := by
        rw [hf, ha]; exact fun h => hq h.symm
      have h2 : ¬ a.m_reference = q := by
        rw [ha]; exact fun h => hq h.symm
      rw [if_pos ha]
      simp only [h1, h2, decide_False]
      exact ih
    · rw [if_neg ha]
      by_cases haq : a.m_reference = q
      · simp only [haq, decide_True]
      · simp only [haq, decide_False]
        exact ih

theorem GetObject_modify_self (vec : PdfVecObjects) (p : PdfReference)
    (f : PdfObject → PdfObject) (hf : ∀ o, (f o).m_reference = o.m_reference) :
    (vec.modify p f).GetObject p = (vec.GetObject p).map f :=
  find_map_self p f hf vec.m_vec

theorem GetObject_modify_other (vec : PdfVecObjects) (p q : PdfReference) (hq : q ≠ p)
    (f : PdfObject → PdfObject) (hf : ∀ o, (f o).m_reference = o.m_reference) :
    (vec.modify p f).GetObject q = vec.GetObject q :=
  find_map_other p q hq f hf vec.m_vec

theorem pushReferences_snd (refs : List PdfReference) :
    ∀ (r0 : PdfReference) (array : TVariantList),
      (PdfSimpleWriter.pushReferences (.reference r0) array refs).2
        = array ++ refs.map PdfVariant.reference := by
  induction refs with
  | nil => intro r0 array; simp [PdfSimpleWriter.pushReferences]
  | cons r rest ih =>
    intro r0 array
    simp [PdfSimpleWriter.pushReferences, PdfVariant.SetReference, ih]

theorem CreatePage_spec (w : PdfSimpleWriter) (root : PdfReference)
    (h : w.m_pPageTree = some root) (tSize : TSize) (init : InitOutcome) :
    w.CreatePage tSize init = some
      (if init.IsError = true then
        ({ w with
          m_vecObjects :=
            (((((w.m_vecObjects.CreateObject none).1.modify root
                (fun o => o.AddKey "Count" (.number (w.m_nPageTreeSize + 1 : Nat)))).modify root
                (fun o => o.AddKey "Kids" (.array ((w.m_vecPageReferences ++
                  [(w.m_vecObjects.CreateObject none).2]).map PdfVariant.reference)))).modify
                (w.m_vecObjects.CreateObject none).2
                (fun o => o.AddKey "Parent" (.reference root))).createMany init.nObjects).delete
                (w.m_vecObjects.CreateObject none).2
          m_vecPageReferences := w.m_vecPageReferences ++ [(w.m_vecObjects.CreateObject none).2]
          m_nPageTreeSize := w.m_nPageTreeSize + 1 }, none)
      else
        ({ w with
          m_vecObjects :=
            ((((w.m_vecObjects.CreateObject none).1.modify root
                (fun o => o.AddKey "Count" (.number (w.m_nPageTreeSize + 1 : Nat)))).modify root
                (fun o => o.AddKey "Kids" (.array ((w.m_vecPageReferences ++
                  [(w.m_vecObjects.CreateObject none).2]).map PdfVariant.reference)))).modify
                (w.m_vecObjects.CreateObject none).2
                (fun o => o.AddKey "Parent" (.reference root))).createMany init.nObjects
          m_vecPageReferences := w.m_vecPageReferences ++ [(w.m_vecObjects.CreateObject none).2]
          m_nPageTreeSize := w.m_nPageTreeSize + 1 }, some (w.m_vecObjects.CreateObject none).2)) := by
  unfold PdfSimpleWriter.CreatePage
  simp only [h, PdfVariant.SetDataType, pushReferences_snd, PdfVariant.SetArray,
    List.nil_append, AddKeyText_repr, PdfObject.AddKeyReference, Option.bind_eq_bind,
    Option.some_bind, Option.pure_def]
  cases init.IsError <;> rfl

/-! ### The store under `CreateObject`, `createMany` and `modify` -/

theorem Contains_CreateObject_new (vec : PdfVecObjects) (pszType : Option String) :
    (vec.CreateObject pszType).1.Contains (vec.CreateObject pszType).2 := by
  simp only [PdfVecObjects.Contains, PdfVecObjects.CreateObject, List.mem_append,
    List.mem_singleton]
  exact ⟨_, Or.inr rfl, rfl⟩

theorem GetObject_CreateObject (vec : PdfVecObjects) (pszType : Option String)
    (q : PdfReference) (o : PdfObject) (h : vec.GetObject q = some o) :
    (vec.CreateObject pszType).1.GetObject q = some o := by
  simp only [PdfVecObjects.GetObject, PdfVecObjects.CreateObject] at h ⊢
  rw [List.find?_append, h]
  rfl

theorem GetObject_of_Contains (vec : PdfVecObjects) (r : PdfReference) (h : vec.Contains r) :
    ∃ o, vec.GetObject r = some o := by
  obtain ⟨o, ho, hr⟩ := h
  cases hfind : vec.GetObject r with
  | some o' => exact ⟨o', rfl⟩
  | none =>
    have := List.find?_eq_none.mp hfind o ho
    simp [hr] at this

theorem GetObject_createMany (n : Nat) : ∀ (vec : PdfVecObjects) (q : PdfReference)
    (o : PdfObject), vec.GetObject q = some o → (vec.createMany n).GetObject q = some o := by
  induction n with
  | zero => intro vec q o h; exact h
  | succ n ih =>
    intro vec q o h
    exact ih _ q o (GetObject_CreateObject vec none q o h)

/-- Setting a key through a pointer keeps the value any object holds under another key. -/
theorem GetKey_modify_other (vec : PdfVecObjects) (p q : PdfReference) (key k : String)
    (v x : PdfVariant) (hk : k ≠ key)
    (h : ∃ o, vec.GetObject q = some o ∧ o.GetKey k = some x) :
    ∃ o, (vec.modify p (fun o => o.AddKey key v)).GetObject q = some o ∧
      o.GetKey k = some x := by
  obtain ⟨o, ho, hx⟩ := h
  by_cases hq : q = p
  · subst hq
    refine ⟨o.AddKey key v, ?_, ?_⟩
    · rw [GetObject_modify_self _ _ _ (fun o => AddKey_reference o key v), ho]; rfl
    · rw [GetKey_AddKey_other o key k v hk, hx]
  · refine ⟨o, ?_, hx⟩
    rw [GetObject_modify_other _ _ _ hq _ (fun o => AddKey_reference o key v), ho]

/-- Setting a key through a pointer gives the pointed object that value under the key. -/
theorem GetKey_modify_self (vec : PdfVecObjects) (p : PdfReference) (key : String)
    (v : PdfVariant) (h : ∃ o, vec.GetObject p = some o) :
    ∃ o, (vec.modify p (fun o => o.AddKey key v)).GetObject p = some o ∧
      o.GetKey key = some v := by
  obtain ⟨o, ho⟩ := h
  refine ⟨o.AddKey key v, ?_, GetKey_AddKey_self o key v⟩
  rw [GetObject_modify_self _ _ _ (fun o => AddKey_reference o key v), ho]; rfl

/-- Setting a key to `v` through a pointer keeps the objects that already hold `v` there. -/
theorem GetKey_modify_same (vec : PdfVecObjects) (p q : PdfReference) (key : String)
    (v : PdfVariant) (h : ∃ o, vec.GetObject q = some o ∧ o.GetKey key = some v) :
    ∃ o, (vec.modify p (fun o => o.AddKey key v)).GetObject q = some o ∧
      o.GetKey key = some v := by
  obtain ⟨o, ho, hx⟩ := h
  by_cases hq : q = p
  · subst hq
    exact GetKey_modify_self vec q key v ⟨o, ho⟩
  · refine ⟨o, ?_, hx⟩
    rw [GetObject_modify_other _ _ _ hq _ (fun o => AddKey_reference o key v), ho]

/-! ### Fresh object numbers and `delete` -/

theorem Fresh_CreateObject (vec : PdfVecObjects) (pszType : Option String) (h : vec.Fresh) :
    (vec.CreateObject pszType).1.Fresh := by
  intro o ho
  simp only [PdfVecObjects.CreateObject, List.mem_append, List.mem_singleton] at ho ⊢
  rcases ho with hold | hnew
  · exact Nat.lt_succ_of_lt (h o hold)
  · rw [hnew]
    exact Nat.lt_succ_self _

theorem Fresh_createMany (n : Nat) : ∀ vec : PdfVecObjects, vec.Fresh →
    (vec.createMany n).Fresh := by
  induction n with
  | zero => intro vec h; exact h
  | succ n ih => intro vec h; exact ih _ (Fresh_CreateObject vec none h)

theorem Fresh_modify (vec : PdfVecObjects) (p : PdfReference) (f : PdfObject → PdfObject)
    (hf : ∀ o, (f o).m_reference = o.m_reference) (h : vec.Fresh) : (vec.modify p f).Fresh := by
  intro o ho
  simp only [PdfVecObjects.modify, List.mem_map] at ho
  obtain ⟨o0, ho0, rfl⟩ := ho
  by_cases hp : o0.m_reference = p
  · rw [if_pos hp, hf]; exact h o0 ho0
  · rw [if_neg hp]; exact h o0 ho0

theorem Fresh_delete (vec : PdfVecObjects) (p : PdfReference) (h : vec.Fresh) :
    (vec.delete p).Fresh := by
  intro o ho
  simp only [PdfVecObjects.delete, List.mem_filter] at ho
  exact h o ho.1

theorem find_filter_other (p q : PdfReference) (hq : q ≠ p) (l : List PdfObject) :
    (l.filter (fun o => o.m_reference ≠ p)).find? (fun o => decide (o.m_reference = q))
      = l.find? (fun o => decide (o.m_reference = q)) := by
  induction l with
  | nil => rfl
  | cons a rest ih =>
    by_cases ha : a.m_reference = p
    · have haq : ¬ a.m_reference = q := fun h => hq (h ▸ ha)
      rw [List.filter_cons_of_neg (by simp [ha]), List.find?_cons_of_neg _ (by simp [haq])]
      exact ih
    · rw [List.filter_cons_of_pos (by simp [ha])]
      by_cases haq : a.m_reference = q
      · rw [List.find?_cons_of_pos _ (by simp [haq]), List.find?_cons_of_pos _ (by simp [haq])]
      · rw [List.find?_cons_of_neg _ (by simp [haq]), List.find?_cons_of_neg _ (by simp [haq])]
        exact ih

theorem GetObject_delete_other (vec : PdfVecObjects) (p q : PdfReference) (hq : q ≠ p) :
    (vec.delete p).GetObject q = vec.GetObject q :=
  find_filter_other p q hq vec.m_vec

theorem not_Contains_of_GetObject_none (vec : PdfVecObjects) (r : PdfReference)
    (h : vec.GetObject r = none) : ¬ vec.Contains r := by
  intro hc
  obtain ⟨o, ho⟩ := GetObject_of_Contains vec r hc
  rw [h] at ho
  cases ho

theorem not_WellReferenced_of_dangling (vec : PdfVecObjects) (q r : PdfReference)
    (o : PdfObject) (key : String) (v : PdfVariant) (ho : vec.GetObject q = some o)
    (hk : (key, v) ∈ o.m_mapKeys) (hr : r ∈ v.references) (hnone : vec.GetObject r = none) :
    ¬ vec.WellReferenced :=
  fun hwell => not_Contains_of_GetObject_none vec r hnone
    (hwell o (GetObject_mem vec q o ho) (key, v) hk r hr)

theorem ne_new_of_GetObject (vec : PdfVecObjects) (h : vec.Fresh) (pszType : Option String)
    (q : PdfReference) (o : PdfObject) (ho : vec.GetObject q = some o) :
    q ≠ (vec.CreateObject pszType).2 := by
  intro heq
  have hlt := h o (GetObject_mem vec q o ho)
  rw [GetObject_reference vec q o ho, heq] at hlt
  simp [PdfVecObjects.CreateObject] at hlt

/-! ### The invariant under the calls -/

theorem GetObject_modify_exists (vec : PdfVecObjects) (p q : PdfReference) (key : String)
    (v : PdfVariant) (h : ∃ o, vec.GetObject q = some o) :
    ∃ o, (vec.modify p (fun o => o.AddKey key v)).GetObject q = some o := by
  obtain ⟨o, ho⟩ := h
  by_cases hq : q = p
  · subst hq
    obtain ⟨o', ho', _⟩ := GetKey_modify_self vec q key v ⟨o, ho⟩
    exact ⟨o', ho'⟩
  · refine ⟨o, ?_⟩
    rw [GetObject_modify_other _ _ _ hq _ (fun o => AddKey_reference o key v), ho]

/-- A change of the store that keeps the objects fresh and keeps the root and the Catalog as
they are keeps the invariant. -/
theorem Consistent_store (w w1 : PdfSimpleWriter) (root : PdfReference)
    (h : w.Consistent root)
    (hTree : w1.m_pPageTree = w.m_pPageTree) (hCat : w1.m_pCatalog = w.m_pCatalog)
    (hSize : w1.m_nPageTreeSize = w.m_nPageTreeSize)
    (hRefs : w1.m_vecPageReferences = w.m_vecPageReferences)
    (hFresh : w1.m_vecObjects.Fresh)
    (hRoot : ∀ o, w.m_vecObjects.GetObject root = some o →
      w1.m_vecObjects.GetObject root = some o)
    (hCatObj : ∀ cat o, w.m_pCatalog = some cat → w.m_vecObjects.GetObject cat = some o →
      w1.m_vecObjects.GetObject cat = some o) : w1.Consistent root := by
  refine ⟨hTree.trans h.pageTree, ?_, hFresh, ?_, ?_, ?_, ?_⟩
  · rw [hSize, hRefs]; exact h.size
  · obtain ⟨o, ho, hk⟩ := h.kids
    exact ⟨o, hRoot _ ho, by rw [hRefs]; exact hk⟩
  · rw [hRefs]
    intro hnil o1 ho1
    obtain ⟨o, ho, _⟩ := h.kids
    rw [hRoot _ ho] at ho1
    rw [← Option.some.inj ho1]
    exact h.noCount hnil o ho
  · rw [hRefs]
    intro hne
    obtain ⟨o, ho, hk⟩ := h.count hne
    exact ⟨o, hRoot _ ho, hk⟩
  · obtain ⟨cat, o, hc, ho, hk⟩ := h.catalog
    exact ⟨cat, o, hCat.trans hc, hCatObj _ _ hc ho, hk⟩

/-- The page created by `CreatePage` and the pages of before, in the store as it is when
`pPage->Init` has returned. -/
theorem CreatePage_linked (w : PdfSimpleWriter) (root : PdfReference)
    (h : w.Consistent root) (nObjects : Nat) :
    ({ w with
      m_vecObjects :=
        ((((w.m_vecObjects.CreateObject none).1.modify root
            (fun o => o.AddKey "Count" (.number (w.m_nPageTreeSize + 1 : Nat)))).modify root
            (fun o => o.AddKey "Kids" (.array ((w.m_vecPageReferences ++
              [(w.m_vecObjects.CreateObject none).2]).map PdfVariant.reference)))).modify
            (w.m_vecObjects.CreateObject none).2
            (fun o => o.AddKey "Parent" (.reference root))).createMany nObjects
      m_vecPageReferences := w.m_vecPageReferences ++ [(w.m_vecObjects.CreateObject none).2]
      m_nPageTreeSize := w.m_nPageTreeSize + 1 } : PdfSimpleWriter).Consistent root ∧
    (∀ q, w.m_vecObjects.PageOf root q →
      (((((w.m_vecObjects.CreateObject none).1.modify root
            (fun o => o.AddKey "Count" (.number (w.m_nPageTreeSize + 1 : Nat)))).modify root
            (fun o => o.AddKey "Kids" (.array ((w.m_vecPageReferences ++
              [(w.m_vecObjects.CreateObject none).2]).map PdfVariant.reference)))).modify
            (w.m_vecObjects.CreateObject none).2
            (fun o => o.AddKey "Parent" (.reference root))).createMany nObjects).PageOf
        root q) ∧
    (((((w.m_vecObjects.CreateObject none).1.modify root
            (fun o => o.AddKey "Count" (.number (w.m_nPageTreeSize + 1 : Nat)))).modify root
            (fun o => o.AddKey "Kids" (.array ((w.m_vecPageReferences ++
              [(w.m_vecObjects.CreateObject none).2]).map PdfVariant.reference)))).modify
            (w.m_vecObjects.CreateObject none).2
            (fun o => o.AddKey "Parent" (.reference root))).createMany nObjects).PageOf
        root (w.m_vecObjects.CreateObject none).2 := by
  have hKP : ("Kids" : String) ≠ "Parent" := by decide
  have hCK : ("Count" : String) ≠ "Kids" := by decide
  have hCP : ("Count" : String) ≠ "Parent" := by decide
  have hPC : ("Parent" : String) ≠ "Count" := by decide
  have hPK : ("Parent" : String) ≠ "Kids" := by decide
  have hGC : ("Pages" : String) ≠ "Count" := by decide
  have hGK : ("Pages" : String) ≠ "Kids" := by decide
  have hGP : ("Pages" : String) ≠ "Parent" := by decide
  have hroot : ∃ o, (w.m_vecObjects.CreateObject none).1.GetObject root = some o := by
    obtain ⟨o, ho, _⟩ := h.kids
    exact ⟨o, GetObject_CreateObject _ _ _ _ ho⟩
  have hnew : ∃ o, (w.m_vecObjects.CreateObject none).1.GetObject
      (w.m_vecObjects.CreateObject none).2 = some o :=
    GetObject_of_Contains _ _ (Contains_CreateObject_new _ _)
  refine ⟨⟨h.pageTree, ?_, ?_, ?_, ?_, ?_, ?_⟩, ?_, ?_⟩
  · simp [h.size]
  · apply Fresh_createMany
    apply Fresh_modify _ _ _ (fun o => AddKey_reference o _ _)
    apply Fresh_modify _ _ _ (fun o => AddKey_reference o _ _)
    apply Fresh_modify _ _ _ (fun o => AddKey_reference o _ _)
    exact Fresh_CreateObject _ _ h.fresh
  · obtain ⟨o, ho, hk⟩ := GetKey_modify_other _ (w.m_vecObjects.CreateObject none).2 root
      "Parent" "Kids" (.reference root) _ hKP
      (GetKey_modify_self _ root "Kids" _ (GetObject_modify_exists _ root root "Count" _ hroot))
    exact ⟨o, GetObject_createMany _ _ _ _ ho, hk⟩
  · intro hnil
    simp at hnil
  · intro _
    obtain ⟨o, ho, hk⟩ := GetKey_modify_other _ (w.m_vecObjects.CreateObject none).2 root
      "Parent" "Count" (.reference root) _ hCP
      (GetKey_modify_other _ root root "Kids" "Count" _ _ hCK
        (GetKey_modify_self _ root "Count" _ hroot))
    refine ⟨o, GetObject_createMany _ _ _ _ ho, ?_⟩
    rw [hk, h.size]
    simp
  · obtain ⟨cat, o, hc, ho, hk⟩ := h.catalog
    obtain ⟨o1, ho1, hk1⟩ := GetKey_modify_other _ (w.m_vecObjects.CreateObject none).2 cat
      "Parent" "Pages" (.reference root) _ hGP
      (GetKey_modify_other _ root cat "Kids" "Pages"
        (.array ((w.m_vecPageReferences ++
          [(w.m_vecObjects.CreateObject none).2]).map PdfVariant.reference)) _ hGK
        (GetKey_modify_other _ root cat "Count" "Pages"
          (.number (w.m_nPageTreeSize + 1 : Nat)) _ hGC
          ⟨o, GetObject_CreateObject _ _ _ _ ho, hk⟩))
    exact ⟨cat, o1, hc, GetObject_createMany _ _ _ _ ho1, hk1⟩
  · intro q hq
    obtain ⟨o, ho, hk⟩ := hq
    obtain ⟨o1, ho1, hk1⟩ := GetKey_modify_same _ (w.m_vecObjects.CreateObject none).2 q
      "Parent" (.reference root)
      (GetKey_modify_other _ root q "Kids" "Parent"
        (.array ((w.m_vecPageReferences ++
          [(w.m_vecObjects.CreateObject none).2]).map PdfVariant.reference)) _ hPK
        (GetKey_modify_other _ root q "Count" "Parent"
          (.number (w.m_nPageTreeSize + 1 : Nat)) _ hPC
          ⟨o, GetObject_CreateObject _ _ _ _ ho, hk⟩))
    exact ⟨o1, GetObject_createMany _ _ _ _ ho1, hk1⟩
  · obtain ⟨o1, ho1, hk1⟩ := GetKey_modify_self _ (w.m_vecObjects.CreateObject none).2
      "Parent" (.reference root)
      (GetObject_modify_exists _ root _ "Kids"
        (.array ((w.m_vecPageReferences ++
          [(w.m_vecObjects.CreateObject none).2]).map PdfVariant.reference))
        (GetObject_modify_exists _ root _ "Count"
          (.number (w.m_nPageTreeSize + 1 : Nat)) hnew))
    exact ⟨o1, GetObject_createMany _ _ _ _ ho1, hk1⟩

theorem CreatePage_Consistent (w : PdfSimpleWriter) (root : PdfReference)
    (h : w.Consistent root) (tSize : TSize) (init : InitOutcome) :
    ∃ w1, w.CreatePage tSize init =
        some (w1, if init.IsError = true then none
          else some (w.m_vecObjects.CreateObject none).2) ∧
      w1.Consistent root ∧
      w1.m_vecPageReferences = w.m_vecPageReferences ++ [(w.m_vecObjects.CreateObject none).2] ∧
      w1.m_vecFonts = w.m_vecFonts ∧
      (∀ q, w.m_vecObjects.PageOf root q → w1.m_vecObjects.PageOf root q) ∧
      (init.IsError = false →
        w1.m_vecObjects.PageOf root (w.m_vecObjects.CreateObject none).2) := by
  obtain ⟨hB, hOld, hNew⟩ := CreatePage_linked w root h init.nObjects
  have hspec := CreatePage_spec w root h.pageTree tSize init
  cases hErr : init.IsError with
  | false =>
    rw [hErr] at hspec
    exact ⟨_, hspec, hB, rfl, rfl, hOld, fun _ => hNew⟩
  | true =>
    rw [hErr] at hspec
    have hne : ∀ q o, w.m_vecObjects.GetObject q = some o →
        q ≠ (w.m_vecObjects.CreateObject none).2 :=
      fun q o ho => ne_new_of_GetObject _ h.fresh none q o ho
    have hrootne : root ≠ (w.m_vecObjects.CreateObject none).2 := by
      obtain ⟨o, ho, _⟩ := h.kids
      exact hne root o ho
    refine ⟨_, hspec, ?_, rfl, rfl, ?_, ?_⟩
    · refine Consistent_store _ _ root hB rfl rfl rfl rfl (Fresh_delete _ _ hB.fresh) ?_ ?_
      · intro o ho
        exact (GetObject_delete_other _ _ root hrootne).trans ho
      · intro cat o hc ho
        obtain ⟨cat0, o0, hc0, ho0, _⟩ := h.catalog
        have hcat : cat = cat0 := Option.some.inj (hc.symm.trans hc0)
        have hcatne : cat ≠ (w.m_vecObjects.CreateObject none).2 := by
          rw [hcat]; exact hne cat0 o0 ho0
        exact (GetObject_delete_other _ _ cat hcatne).trans ho
    · intro q hq
      obtain ⟨o, ho, hk⟩ := hOld q hq
      obtain ⟨o0, ho0, _⟩ := hq
      exact ⟨o, (GetObject_delete_other _ _ q (hne q o0 ho0)).trans ho, hk⟩
    · intro hcontra
      cases hcontra

theorem CreateFont_Consistent (GetFilenameForFont : String → String) (w : PdfSimpleWriter)
    (root : PdfReference) (h : w.Consistent root) (pszFontName : String) (bEmbedd : Bool)
    (init : InitOutcome) (address : Nat) :
    (w.CreateFont GetFilenameForFont pszFontName bEmbedd init address).1.Consistent root ∧
      (w.CreateFont GetFilenameForFont pszFontName bEmbedd init address).1.m_vecPageReferences
        = w.m_vecPageReferences ∧
      (∀ q, w.m_vecObjects.PageOf root q →
        (w.CreateFont GetFilenameForFont pszFontName bEmbedd init
          address).1.m_vecObjects.PageOf root q) := by
  have hfresh : ((w.m_vecObjects.CreateObject none).1.createMany init.nObjects).Fresh :=
    Fresh_createMany _ _ (Fresh_CreateObject _ _ h.fresh)
  have hobj : ∀ q o, w.m_vecObjects.GetObject q = some o →
      ((w.m_vecObjects.CreateObject none).1.createMany init.nObjects).GetObject q = some o :=
    fun q o ho => GetObject_createMany _ _ _ _ (GetObject_CreateObject _ _ _ _ ho)
  have hpage : ∀ q, w.m_vecObjects.PageOf root q →
      ((w.m_vecObjects.CreateObject none).1.createMany init.nObjects).PageOf root q :=
    fun q hq => hq.elim fun o ho => ⟨o, hobj q o ho.1, ho.2⟩
  unfold PdfSimpleWriter.CreateFont
  simp only
  split
  · exact ⟨Consistent_store w _ root h rfl rfl rfl rfl h.fresh (fun _ ho => ho)
      (fun _ _ _ ho => ho), rfl, fun _ hq => hq⟩
  · split
    · split
      · exact ⟨Consistent_store w _ root h rfl rfl rfl rfl hfresh (fun o ho => hobj _ o ho)
          (fun cat o _ ho => hobj cat o ho), rfl, hpage⟩
      · exact ⟨Consistent_store w _ root h rfl rfl rfl rfl hfresh (fun o ho => hobj _ o ho)
          (fun cat o _ ho => hobj cat o ho), rfl, hpage⟩
    · exact ⟨h, rfl, fun _ hq => hq⟩

theorem CreateImage_Consistent (w : PdfSimpleWriter) (root : PdfReference)
    (h : w.Consistent root) :
    w.CreateImage.1.Consistent root ∧
      w.CreateImage.1.m_vecPageReferences = w.m_vecPageReferences ∧
      (∀ q, w.m_vecObjects.PageOf root q → w.CreateImage.1.m_vecObjects.PageOf root q) :=
  ⟨Consistent_store w _ root h rfl rfl rfl rfl
      (Fresh_CreateObject w.m_vecObjects none h.fresh)
      (fun o ho => GetObject_CreateObject w.m_vecObjects none root o ho)
      (fun cat o _ ho => GetObject_CreateObject w.m_vecObjects none cat o ho), rfl,
    fun q hq => hq.elim fun o ho =>
      ⟨o, GetObject_CreateObject w.m_vecObjects none q o ho.1, ho.2⟩⟩

theorem call_Consistent (GetFilenameForFont : String → String) (w : PdfSimpleWriter)
    (root : PdfReference) (h : w.Consistent root) (c : Call) :
    ∃ w1 r, w.call GetFilenameForFont c = some (w1, r) ∧ w1.Consistent root ∧
      (∃ extra, w1.m_vecPageReferences = w.m_vecPageReferences ++ extra) ∧
      (c.isCreatePage = true → w1.m_vecPageReferences ≠ []) ∧
      (∀ q, w.m_vecObjects.PageOf root q → w1.m_vecObjects.PageOf root q) ∧
      (∀ p, c.isCreatePage = true → r = some p → w1.m_vecObjects.PageOf root p) := by
  cases c with
  | CreatePage tSize init =>
    obtain ⟨w1, hcall, hcons, hrefs, _, hold, hnew⟩ := CreatePage_Consistent w root h tSize init
    refine ⟨w1, _, hcall, hcons, ⟨_, hrefs⟩, ?_, hold, ?_⟩
    · intro _; rw [hrefs]; simp
    · intro p _ hp
      by_cases he : init.IsError = true
      · rw [if_pos he] at hp; cases hp
      · rw [if_neg he] at hp
        rw [← Option.some.inj hp]
        exact hnew (by simpa using he)
  | CreateFont pszFontName bEmbedd init address =>
    obtain ⟨hcons, hrefs, hold⟩ :=
      CreateFont_Consistent GetFilenameForFont w root h pszFontName bEmbedd init address
    exact ⟨(w.CreateFont GetFilenameForFont pszFontName bEmbedd init address).1,
      (w.CreateFont GetFilenameForFont pszFontName bEmbedd init address).2, rfl, hcons,
      ⟨[], by rw [List.append_nil]; exact hrefs⟩, by simp [Call.isCreatePage], hold,
      by simp [Call.isCreatePage]⟩
  | CreateImage =>
    obtain ⟨hcons, hrefs, hold⟩ := CreateImage_Consistent w root h
    exact ⟨w.CreateImage.1, w.CreateImage.2, rfl, hcons,
      ⟨[], by rw [List.append_nil]; exact hrefs⟩, by simp [Call.isCreatePage], hold,
      by simp [Call.isCreatePage]⟩

theorem run_Consistent (GetFilenameForFont : String → String) (calls : List Call) :
    ∀ (w : PdfSimpleWriter) (root : PdfReference), w.Consistent root →
    ∃ w2 rs, w.run GetFilenameForFont calls = some (w2, rs) ∧ w2.Consistent root ∧
      (∃ extra, w2.m_vecPageReferences = w.m_vecPageReferences ++ extra) ∧
      ((∃ c ∈ calls, c.isCreatePage = true) → w2.m_vecPageReferences ≠ []) ∧
      (∀ q, w.m_vecObjects.PageOf root q → w2.m_vecObjects.PageOf root q) ∧
      (∀ c p, (c, some p) ∈ calls.zip rs → c.isCreatePage = true →
        w2.m_vecObjects.PageOf root p) := by
  induction calls with
  | nil =>
    intro w root h
    exact ⟨w, [], rfl, h, ⟨[], by simp⟩, by simp, fun _ hq => hq, by simp⟩
  | cons c cs ih =>
    intro w root h
    obtain ⟨w1, r, hcall, hcons1, ⟨e1, he1⟩, hne1, hold1, hnew1⟩ :=
      call_Consistent GetFilenameForFont w root h c
    obtain ⟨w2, rs, hrun, hcons2, ⟨e2, he2⟩, hne2, hold2, hnew2⟩ := ih w1 root hcons1
    refine ⟨w2, r :: rs, ?_, hcons2, ⟨e1 ++ e2, by rw [he2, he1, List.append_assoc]⟩, ?_,
      fun q hq => hold2 q (hold1 q hq), ?_⟩
    · simp [PdfSimpleWriter.run, hcall, hrun]
    · rintro ⟨c0, hc0, hpage⟩
      rcases List.mem_cons.mp hc0 with heq | htail
      · subst heq
        have := hne1 hpage
        rw [he2]
        intro hnil
        exact this (List.append_eq_nil.mp hnil).1
      · exact hne2 ⟨c0, htail, hpage⟩
    · intro c0 p hzip hpage
      rw [List.zip_cons_cons, List.mem_cons] at hzip
      rcases hzip with heq | htail
      · obtain ⟨hc, hr⟩ := Prod.mk.inj heq
        subst hc
        exact hold2 p (hnew1 p hpage hr.symm)
      · exact hnew2 c0 p htail hpage

/-! ### The writer after `Init` -/

theorem Init_reference : PdfVariant.Init (PdfReference.ToString ⟨3, 0⟩)
    = some (.reference ⟨3, 0⟩) := by rfl

theorem Init_empty_array : PdfVariant.Init "[ ]" = some (.array []) := by rfl

theorem Init_cases (ftFailed : Bool) (baseError : EPdfError) (sDate : String)
    (w : PdfSimpleWriter)
    (h : PdfSimpleWriter.new.Init ftFailed baseError sDate = some (.ErrOk, w)) :
    ftFailed = false ∧ baseError = .ErrOk := by
  cases ftFailed with
  | true => simp [PdfSimpleWriter.Init] at h
  | false =>
    refine ⟨rfl, ?_⟩
    by_contra hne
    simp [PdfSimpleWriter.Init, PdfWriter.Init, hne] at h

theorem Init_eq (sDate : String) :
    PdfSimpleWriter.new.Init false .ErrOk sDate = some (.ErrOk,
      { m_vecObjects :=
          ⟨[⟨⟨1, 0⟩, [("Pages", .reference ⟨3, 0⟩), ("Type", .name "Catalog")]⟩,
            ⟨⟨2, 0⟩, [("CreationDate", .string sDate), ("Producer", .string "PoDoFo")]⟩,
            ⟨⟨3, 0⟩, [("Kids", .array []), ("Type", .name "Pages")]⟩], 4, []⟩
        m_pCatalog := some ⟨1, 0⟩
        m_pInfo := some ⟨2, 0⟩
        m_pPageTree := some ⟨3, 0⟩
        m_nPageTreeSize := 0
        m_bInitDone := true
        m_vecPageReferences := []
        m_vecFonts := []
        effects := [] }) := by
  rfl

theorem Init_Consistent (ftFailed : Bool) (baseError : EPdfError) (sDate : String)
    (w : PdfSimpleWriter)
    (h : PdfSimpleWriter.new.Init ftFailed baseError sDate = some (.ErrOk, w)) :
    w.Consistent ⟨3, 0⟩ ∧ w.m_vecPageReferences = [] := by
  obtain ⟨hft, hbe⟩ := Init_cases ftFailed baseError sDate w h
  subst hft hbe
  rw [Init_eq] at h
  obtain ⟨-, rfl⟩ := Prod.mk.inj (Option.some.inj h)
  refine ⟨⟨rfl, rfl, ?_, ⟨_, rfl, rfl⟩, ?_, fun hne => absurd rfl hne, ⟨_, _, rfl, rfl, rfl⟩⟩,
    rfl⟩
  · intro o ho
    simp only [List.mem_cons, List.mem_singleton, List.not_mem_nil, or_false] at ho
    rcases ho with rfl | rfl | rfl
    · exact (by decide : 1 < 4)
    · exact (by decide : 2 < 4)
    · exact (by decide : 3 < 4)
  · intro _ o ho
    cases ho
    rfl

theorem Init_example :
    PdfSimpleWriter.new.Init false .ErrOk "D:20060101120000" = some (.ErrOk, exampleWriter) := by
  rfl

/-! ### Runs of page calls -/

theorem run_pages (GetFilenameForFont : String → String) (pages : List (TSize × InitOutcome)) :
    ∀ (w : PdfSimpleWriter) (root : PdfReference), w.Consistent root →
    (∀ s ∈ pages, s.2.IsError = false) →
    ∃ w2 refs,
      w.run GetFilenameForFont (pages.map (fun s => Call.CreatePage s.1 s.2))
        = some (w2, refs.map some) ∧
      refs.length = pages.length ∧ w2.Consistent root ∧
      w2.m_vecPageReferences = w.m_vecPageReferences ++ refs := by
  induction pages with
  | nil =>
    intro w root h _
    exact ⟨w, [], rfl, rfl, h, by simp⟩
  | cons s rest ih =>
    intro w root h hok
    obtain ⟨w1, hcall, hcons1, hrefs1, _⟩ := CreatePage_Consistent w root h s.1 s.2
    have hs : s.2.IsError = false := hok s (List.mem_cons_self _ _)
    rw [hs] at hcall
    obtain ⟨w2, refs, hrun, hlen, hcons2, hrefs2⟩ :=
      ih w1 root hcons1 (fun x hx => hok x (List.mem_cons_of_mem _ hx))
    refine ⟨w2, (w.m_vecObjects.CreateObject none).2 :: refs, ?_, by simp [hlen], hcons2, ?_⟩
    · simp only [List.map_cons, PdfSimpleWriter.run, PdfSimpleWriter.call, hcall]
      simp [hrun]
    · rw [hrefs2, hrefs1, List.append_assoc]; rfl

/-! ### The font vector -/

theorem FontComperator_iff (sPath : String) (pFont : PdfFont) :
    FontComperator sPath pFont = true ↔ sPath = pFont.m_pMetrics := by
  simp [FontComperator]

theorem find_none_not_mem (sPath : String) (fonts : List PdfFont)
    (h : fonts.find? (FontComperator sPath) = none) :
    sPath ∉ fonts.map PdfFont.m_pMetrics := by
  intro hmem
  obtain ⟨f, hf, hpath⟩ := List.mem_map.mp hmem
  have := List.find?_eq_none.mp h f hf
  exact this ((FontComperator_iff sPath f).mpr hpath.symm)

theorem CreateFont_nodup (GetFilenameForFont : String → String) (w : PdfSimpleWriter)
    (pszFontName : String) (bEmbedd : Bool) (init : InitOutcome) (address : Nat)
    (h : (w.m_vecFonts.map PdfFont.m_pMetrics).Nodup) :
    ((w.CreateFont GetFilenameForFont pszFontName bEmbedd init address).1.m_vecFonts.map
      PdfFont.m_pMetrics).Nodup := by
  unfold PdfSimpleWriter.CreateFont
  simp only
  split
  · exact h
  · split
    · rename_i hfind
      have hperm := (List.perm_insertionSort (fun a b : PdfFont => a.address ≤ b.address)
        (w.m_vecFonts ++ [PdfFont.mk (w.m_vecObjects.CreateObject none).2
          (GetFilenameForFont pszFontName) address])).map PdfFont.m_pMetrics
      have hnd : ((w.m_vecFonts ++ [PdfFont.mk (w.m_vecObjects.CreateObject none).2
          (GetFilenameForFont pszFontName) address]).map PdfFont.m_pMetrics).Nodup := by
        rw [List.map_append, List.map_singleton]
        refine List.Nodup.append h (List.nodup_singleton _) ?_
        intro x hx hx1
        rw [List.mem_singleton.mp hx1] at hx
        exact find_none_not_mem _ _ hfind hx
      split
      · exact hperm.nodup_iff.mpr hnd
      · exact hperm.nodup_iff.mpr hnd
    · exact h

theorem run_fonts_nodup (GetFilenameForFont : String → String)
    (fonts : List (String × Bool × InitOutcome × Nat)) :
    ∀ w : PdfSimpleWriter, (w.m_vecFonts.map PdfFont.m_pMetrics).Nodup →
    ∃ w1 rs, w.run GetFilenameForFont
        (fonts.map (fun f => Call.CreateFont f.1 f.2.1 f.2.2.1 f.2.2.2)) = some (w1, rs) ∧
      (w1.m_vecFonts.map PdfFont.m_pMetrics).Nodup := by
  induction fonts with
  | nil => intro w h; exact ⟨w, [], rfl, h⟩
  | cons f rest ih =>
    intro w h
    obtain ⟨w1, rs, hrun, hnd⟩ := ih _
      (CreateFont_nodup GetFilenameForFont w f.1 f.2.1 f.2.2.1 f.2.2.2 h)
    refine ⟨w1, (w.CreateFont GetFilenameForFont f.1 f.2.1 f.2.2.1 f.2.2.2).2 :: rs, ?_, hnd⟩
    simp only [List.map_cons, PdfSimpleWriter.run, PdfSimpleWriter.call, Option.bind_eq_bind,
      Option.some_bind, hrun]
    rfl

theorem CreateFont_found (GetFilenameForFont : String → String) (w : PdfSimpleWriter)
    (pszFontName : String) (bEmbedd : Bool) (init : InitOutcome) (address : Nat)
    (pFont : PdfFont) (hne : GetFilenameForFont pszFontName ≠ "")
    (hfind : w.m_vecFonts.find? (FontComperator (GetFilenameForFont pszFontName)) = some pFont) :
    w.CreateFont GetFilenameForFont pszFontName bEmbedd init address
      = (w, some pFont.m_reference) := by
  have hemp : (GetFilenameForFont pszFontName).isEmpty = false := by
    cases hb : (GetFilenameForFont pszFontName).isEmpty with
    | false => rfl
    | true => exact absurd ((String.isEmpty_iff _).mp hb) hne
  unfold PdfSimpleWriter.CreateFont
  simp only [hemp, hfind]
  rfl

theorem find_after_insert (sPath : String) (fonts : List PdfFont) (pFont : PdfFont)
    (hpath : pFont.m_pMetrics = sPath)
    (hnone : fonts.find? (FontComperator sPath) = none) :
    (List.insertionSort (fun a b : PdfFont => a.address ≤ b.address)
      (fonts ++ [pFont])).find? (FontComperator sPath) = some pFont := by
  have hperm := List.perm_insertionSort (fun a b : PdfFont => a.address ≤ b.address)
    (fonts ++ [pFont])
  cases hfind : (List.insertionSort (fun a b : PdfFont => a.address ≤ b.address)
      (fonts ++ [pFont])).find? (FontComperator sPath) with
  | none =>
    have hmem : pFont ∈ List.insertionSort (fun a b : PdfFont => a.address ≤ b.address)
        (fonts ++ [pFont]) := hperm.mem_iff.mpr (by simp)
    have := List.find?_eq_none.mp hfind pFont hmem
    exact absurd ((FontComperator_iff sPath pFont).mpr hpath.symm) this
  | some x =>
    have hx : x ∈ fonts ++ [pFont] := hperm.mem_iff.mp (List.mem_of_find?_eq_some hfind)
    have hcomp : FontComperator sPath x = true := List.find?_some hfind
    rcases List.mem_append.mp hx with hold | hnew
    · have := List.find?_eq_none.mp hnone x hold
      exact absurd hcomp this
    · rw [List.mem_singleton.mp hnew]

theorem run_length (GetFilenameForFont : String → String) (calls : List Call) :
    ∀ (w w2 : PdfSimpleWriter) (rs : List (Option PdfReference)),
      w.run GetFilenameForFont calls = some (w2, rs) → rs.length = calls.length := by
  induction calls with
  | nil =>
    intro w w2 rs h
    simp only [PdfSimpleWriter.run, Option.some.injEq, Prod.mk.injEq] at h
    rw [← h.2]
    rfl
  | cons c cs ih =>
    intro w w2 rs h
    simp only [PdfSimpleWriter.run, Option.bind_eq_bind, Option.bind_eq_some, Option.pure_def,
      Option.some.injEq, Prod.mk.injEq, Prod.exists] at h
    obtain ⟨w1, r, _, w3, rs3, hrun, _, hrs⟩ := h
    rw [← hrs, List.length_cons, ih w1 w3 rs3 hrun, List.length_cons]

/-! # The claims -/

/-- C1: after a successful `Init`, for every N ≥ 1 and every sequence of N `CreatePage` calls
that all succeed (no page initializer fails), each call returns a page, the page-tree root's
Count is N, and its Kids is the array of exactly N references, the i-th entry being the
reference of the page the i-th call returned. -/
theorem C1_Count_and_Kids_after_N_pages (GetFilenameForFont : String → String)
    (ftFailed : Bool) (baseError : EPdfError) (sDate : String) (w0 : PdfSimpleWriter)
    (hInit : PdfSimpleWriter.new.Init ftFailed baseError sDate = some (.ErrOk, w0))
    (pages : List (TSize × InitOutcome)) (hN : 1 ≤ pages.length)
    (hSucceed : ∀ s ∈ pages, s.2.IsError = false) :
    ∃ (w : PdfSimpleWriter) (refs : List PdfReference) (rootObj : PdfObject),
      w0.run GetFilenameForFont (pages.map (fun s => Call.CreatePage s.1 s.2))
        = some (w, refs.map some) ∧
      refs.length = pages.length ∧
      w.pageTree = some rootObj ∧
      rootObj.GetKey "Count" = some (.number (pages.length : Nat)) ∧
      rootObj.GetKey "Kids" = some (.array (refs.map PdfVariant.reference)) := by
  obtain ⟨hcons0, hrefs0⟩ := Init_Consistent ftFailed baseError sDate w0 hInit
  obtain ⟨w, refs, hrun, hlen, hcons, hrefs⟩ :=
    run_pages GetFilenameForFont pages w0 _ hcons0 hSucceed
  rw [hrefs0, List.nil_append] at hrefs
  have hne : w.m_vecPageReferences ≠ [] := by
    intro hnil
    rw [hrefs] at hnil
    rw [hnil] at hlen
    simp at hlen
    omega
  obtain ⟨o, ho, hk⟩ := hcons.kids
  obtain ⟨o1, ho1, hc⟩ := hcons.count hne
  rw [ho] at ho1
  rw [← Option.some.inj ho1] at hc
  refine ⟨w, refs, o, hrun, hlen, ?_, ?_, ?_⟩
  · simp [PdfSimpleWriter.pageTree, hcons.pageTree, ho]
  · rw [hc, hrefs, hlen]
  · rw [hk, hrefs]

/-- C1, witness: three A4 pages after `Init`; the pages are objects 4, 6 and 8 (each page
initializer takes one more object from the store). -/
theorem C1_witness :
    PdfSimpleWriter.new.Init false .ErrOk "D:20060101120000" = some (.ErrOk, exampleWriter) ∧
    1 ≤ [(exampleA4, InitOutcome.mk false 1), (exampleA4, ⟨false, 1⟩),
      (exampleA4, ⟨false, 1⟩)].length ∧
    (∀ s ∈ [(exampleA4, InitOutcome.mk false 1), (exampleA4, ⟨false, 1⟩),
      (exampleA4, ⟨false, 1⟩)], s.2.IsError = false) ∧
    ∃ (w : PdfSimpleWriter) (refs : List PdfReference) (rootObj : PdfObject),
      exampleWriter.run exampleLocator
          ([(exampleA4, InitOutcome.mk false 1), (exampleA4, ⟨false, 1⟩),
            (exampleA4, ⟨false, 1⟩)].map (fun s => Call.CreatePage s.1 s.2))
        = some (w, refs.map some) ∧
      refs.length = [(exampleA4, InitOutcome.mk false 1), (exampleA4, ⟨false, 1⟩),
        (exampleA4, ⟨false, 1⟩)].length ∧
      w.pageTree = some rootObj ∧
      rootObj.GetKey "Count" = some (.number
        ([(exampleA4, InitOutcome.mk false 1), (exampleA4, ⟨false, 1⟩),
          (exampleA4, ⟨false, 1⟩)].length : Nat)) ∧
      rootObj.GetKey "Kids" = some (.array (refs.map PdfVariant.reference)) :=
  ⟨Init_example, by decide, by decide,
    C1_Count_and_Kids_after_N_pages exampleLocator false .ErrOk "D:20060101120000" exampleWriter
      Init_example [(exampleA4, ⟨false, 1⟩), (exampleA4, ⟨false, 1⟩), (exampleA4, ⟨false, 1⟩)]
      (by decide) (by decide)⟩

/-- C2: when two family names resolve to the same non-empty path and `CreateFont` for the
first returns a font, the `CreateFont` for the second that follows at once returns the same
font and leaves the writer as it was: no object is created and no metrics are loaded. -/
theorem C2_same_path_same_font (GetFilenameForFont : String → String) (w w1 : PdfSimpleWriter)
    (nameA nameB : String) (embedA embedB : Bool) (initA initB : InitOutcome)
    (addressA addressB : Nat) (pFont : PdfReference)
    (hSame : GetFilenameForFont nameA = GetFilenameForFont nameB)
    (hPath : GetFilenameForFont nameA ≠ "")
    (hFirst : w.CreateFont GetFilenameForFont nameA embedA initA addressA = (w1, some pFont)) :
    w1.CreateFont GetFilenameForFont nameB embedB initB addressB = (w1, some pFont) := by
  have hPathB : GetFilenameForFont nameB ≠ "" := hSame ▸ hPath
  cases hfind : w.m_vecFonts.find? (FontComperator (GetFilenameForFont nameA)) with
  | some f =>
    rw [CreateFont_found GetFilenameForFont w nameA embedA initA addressA f hPath hfind] at hFirst
    obtain ⟨hw, hp⟩ := Prod.mk.inj hFirst
    subst hw
    rw [← Option.some.inj hp]
    exact CreateFont_found GetFilenameForFont w nameB embedB initB addressB f hPathB
      (hSame ▸ hfind)
  | none =>
    have hemp : (GetFilenameForFont nameA).isEmpty = false := by
      cases hb : (GetFilenameForFont nameA).isEmpty with
      | false => rfl
      | true => exact absurd ((String.isEmpty_iff _).mp hb) hPath
    unfold PdfSimpleWriter.CreateFont at hFirst
    simp only [hemp, hfind] at hFirst
    cases hErr : initA.IsError with
    | true =>
      simp [hErr] at hFirst
    | false =>
      simp only [hErr] at hFirst
      obtain ⟨hw, hp⟩ := Prod.mk.inj hFirst
      have hfind1 : w1.m_vecFonts.find? (FontComperator (GetFilenameForFont nameB))
          = some ⟨(w.m_vecObjects.CreateObject none).2, GetFilenameForFont nameA, addressA⟩ := by
        rw [← hw, ← hSame]
        exact find_after_insert _ _ _ rfl hfind
      rw [CreateFont_found GetFilenameForFont w1 nameB embedB initB addressB _ hPathB hfind1]
      rw [← Option.some.inj hp]

/-- C2, witness: "Arial" and "ArialMT" resolve to one file; the first call creates font
object 4, the second returns it and changes nothing. -/
theorem C2_witness :
    exampleLocator "Arial" = exampleLocator "ArialMT" ∧ exampleLocator "Arial" ≠ "" ∧
    exampleWriter.CreateFont exampleLocator "Arial" true ⟨false, 2⟩ 4096
      = ((exampleWriter.CreateFont exampleLocator "Arial" true ⟨false, 2⟩ 4096).1,
          some ⟨4, 0⟩) ∧
    (exampleWriter.CreateFont exampleLocator "Arial" true ⟨false, 2⟩ 4096).1.CreateFont
        exampleLocator "ArialMT" false ⟨false, 2⟩ 8192
      = ((exampleWriter.CreateFont exampleLocator "Arial" true ⟨false, 2⟩ 4096).1,
          some ⟨4, 0⟩) :=
  ⟨by decide, by decide, rfl,
    C2_same_path_same_font exampleLocator exampleWriter
      (exampleWriter.CreateFont exampleLocator "Arial" true ⟨false, 2⟩ 4096).1
      "Arial" "ArialMT" true false ⟨false, 2⟩ ⟨false, 2⟩ 4096 8192 ⟨4, 0⟩
      (by decide) (by decide) rfl⟩

/-- C3: for a family name the locator does not resolve (empty path) `CreateFont` returns no
font, the font vector and the object store are unchanged, and the one effect is the
diagnostic about the name. -/
theorem C3_unresolved_font_fails (GetFilenameForFont : String → String) (w : PdfSimpleWriter)
    (pszFontName : String) (bEmbedd : Bool) (init : InitOutcome) (address : Nat)
    (hPath : GetFilenameForFont pszFontName = "") :
    (w.CreateFont GetFilenameForFont pszFontName bEmbedd init address).2 = none ∧
    (w.CreateFont GetFilenameForFont pszFontName bEmbedd init address).1.m_vecFonts
      = w.m_vecFonts ∧
    (w.CreateFont GetFilenameForFont pszFontName bEmbedd init address).1.m_vecFonts.length
      = w.m_vecFonts.length ∧
    (w.CreateFont GetFilenameForFont pszFontName bEmbedd init address).1.m_vecObjects
      = w.m_vecObjects ∧
    (w.CreateFont GetFilenameForFont pszFontName bEmbedd init address).1.effects
      = w.effects ++ [.LogMessage .Critical pszFontName] := by
  have hemp : (GetFilenameForFont pszFontName).isEmpty = true :=
    (String.isEmpty_iff _).mpr hPath
  simp [PdfSimpleWriter.CreateFont, hemp]

/-- C3, witness: "NoSuchFont123" is not resolved. -/
theorem C3_witness :
    exampleLocator "NoSuchFont123" = "" ∧
    (exampleWriter.CreateFont exampleLocator "NoSuchFont123" false ⟨false, 0⟩ 4096).2 = none ∧
    (exampleWriter.CreateFont exampleLocator "NoSuchFont123" false ⟨false, 0⟩ 4096).1.m_vecFonts
      = exampleWriter.m_vecFonts ∧
    (exampleWriter.CreateFont exampleLocator "NoSuchFont123" false ⟨false, 0⟩
      4096).1.m_vecFonts.length = exampleWriter.m_vecFonts.length ∧
    (exampleWriter.CreateFont exampleLocator "NoSuchFont123" false ⟨false, 0⟩ 4096).1.m_vecObjects
      = exampleWriter.m_vecObjects ∧
    (exampleWriter.CreateFont exampleLocator "NoSuchFont123" false ⟨false, 0⟩ 4096).1.effects
      = exampleWriter.effects ++ [.LogMessage .Critical "NoSuchFont123"] :=
  ⟨by decide, C3_unresolved_font_fails exampleLocator exampleWriter "NoSuchFont123" false
    ⟨false, 0⟩ 4096 (by decide)⟩

/-- C4, counterexample: right after a successful `Init`, before any page is created, the
page-tree root has the empty Kids array and no Count key at all. -/
theorem C4_counterexample_no_Count_before_first_page :
    PdfSimpleWriter.new.Init false .ErrOk "D:20060101120000" = some (.ErrOk, exampleWriter) ∧
    exampleWriter.run exampleLocator [] = some (exampleWriter, []) ∧
    ∃ rootObj, exampleWriter.pageTree = some rootObj ∧
      rootObj.GetKey "Kids" = some (.array []) ∧
      rootObj.GetKey "Count" = none ∧
      ¬ ∃ n : Int, rootObj.GetKey "Count" = some (.number n) := by
  refine ⟨Init_example, rfl,
    ⟨⟨3, 0⟩, [("Kids", .array []), ("Type", .name "Pages")]⟩, rfl, rfl, rfl, ?_⟩
  rintro ⟨n, hn⟩
  have hnone : (PdfObject.mk ⟨3, 0⟩ [("Kids", .array []), ("Type", .name "Pages")]).GetKey
      "Count" = none := rfl
  rw [hnone] at hn
  cases hn

/-- C4, amended: in every state reached from a successful `Init` by a sequence of calls with at
least one `CreatePage` among them, whether the calls succeed or fail, the page-tree root has
a Count key holding the integer that is the number of entries of its Kids array. -/
theorem C4_Count_equals_Kids_length (GetFilenameForFont : String → String)
    (ftFailed : Bool) (baseError : EPdfError) (sDate : String) (w0 : PdfSimpleWriter)
    (hInit : PdfSimpleWriter.new.Init ftFailed baseError sDate = some (.ErrOk, w0))
    (calls : List Call) (hPage : ∃ c ∈ calls, c.isCreatePage = true) :
    ∃ (w : PdfSimpleWriter) (rs : List (Option PdfReference)) (rootObj : PdfObject)
      (kids : List PdfVariant),
      w0.run GetFilenameForFont calls = some (w, rs) ∧
      w.pageTree = some rootObj ∧
      rootObj.GetKey "Kids" = some (.array kids) ∧
      rootObj.GetKey "Count" = some (.number (kids.length : Nat)) := by
  obtain ⟨hcons0, _⟩ := Init_Consistent ftFailed baseError sDate w0 hInit
  obtain ⟨w, rs, hrun, hcons, _, hne, _⟩ := run_Consistent GetFilenameForFont calls w0 _ hcons0
  obtain ⟨o, ho, hk⟩ := hcons.kids
  obtain ⟨o1, ho1, hc⟩ := hcons.count (hne hPage)
  rw [ho] at ho1
  rw [← Option.some.inj ho1] at hc
  refine ⟨w, rs, o, _, hrun, ?_, hk, ?_⟩
  · simp [PdfSimpleWriter.pageTree, hcons.pageTree, ho]
  · rw [hc, List.length_map]

/-- C4, witness: one page whose initializer fails, then one that succeeds. -/
theorem C4_witness :
    PdfSimpleWriter.new.Init false .ErrOk "D:20060101120000" = some (.ErrOk, exampleWriter) ∧
    (∃ c ∈ [Call.CreatePage exampleA4 ⟨true, 0⟩, Call.CreatePage exampleA4 ⟨false, 1⟩],
      c.isCreatePage = true) ∧
    ∃ (w : PdfSimpleWriter) (rs : List (Option PdfReference)) (rootObj : PdfObject)
      (kids : List PdfVariant),
      exampleWriter.run exampleLocator
        [Call.CreatePage exampleA4 ⟨true, 0⟩, Call.CreatePage exampleA4 ⟨false, 1⟩]
          = some (w, rs) ∧
      w.pageTree = some rootObj ∧
      rootObj.GetKey "Kids" = some (.array kids) ∧
      rootObj.GetKey "Count" = some (.number (kids.length : Nat)) :=
  ⟨Init_example, ⟨_, List.mem_cons_self _ _, rfl⟩,
    C4_Count_equals_Kids_length exampleLocator false .ErrOk "D:20060101120000" exampleWriter
      Init_example [Call.CreatePage exampleA4 ⟨true, 0⟩, Call.CreatePage exampleA4 ⟨false, 1⟩]
      ⟨_, List.mem_cons_self _ _, rfl⟩⟩

/-- C5, counterexample: right after a successful `Init` the root has no Count; a `CreatePage`
whose page initializer fails returns NULL and leaves Count = 1, which is not one more than a
Count of before, there being none. -/
theorem C5_counterexample_no_Count_to_compare :
    PdfSimpleWriter.new.Init false .ErrOk "D:20060101120000" = some (.ErrOk, exampleWriter) ∧
    ∃ (w1 : PdfSimpleWriter) (rootObj rootObj1 : PdfObject),
      exampleWriter.CreatePage exampleA4 ⟨true, 0⟩ = some (w1, none) ∧
      exampleWriter.pageTree = some rootObj ∧ w1.pageTree = some rootObj1 ∧
      rootObj.GetKey "Count" = none ∧
      rootObj1.GetKey "Count" = some (.number 1) ∧
      ¬ ∃ c : Int, rootObj.GetKey "Count" = some (.number c) ∧
        rootObj1.GetKey "Count" = some (.number (c + 1)) := by
  refine ⟨Init_example, _, ⟨⟨3, 0⟩, [("Kids", .array []), ("Type", .name "Pages")]⟩, _,
    rfl, rfl, rfl, rfl, rfl, ?_⟩
  rintro ⟨c, hc, _⟩
  have hnone : (PdfObject.mk ⟨3, 0⟩ [("Kids", .array []), ("Type", .name "Pages")]).GetKey
      "Count" = none := rfl
  rw [hnone] at hc
  cases hc

/-- C5, amended: in a state reached from a successful `Init` by any calls, a `CreatePage` whose
page initializer fails returns NULL and the page-tree updates stay: the root's Kids is the
Kids of before with the reference of the failed page appended as last entry, and the root's
Count is the number of entries Kids had before plus one. That is one more than the Count of
before when Kids had entries; when it had none the root had no Count and Count becomes 1. -/
theorem C5_failed_page_keeps_tree_updates (GetFilenameForFont : String → String)
    (ftFailed : Bool) (baseError : EPdfError) (sDate : String) (w0 : PdfSimpleWriter)
    (hInit : PdfSimpleWriter.new.Init ftFailed baseError sDate = some (.ErrOk, w0))
    (calls : List Call) (tSize : TSize) (init : InitOutcome) (hFail : init.IsError = true) :
    ∃ (w w1 : PdfSimpleWriter) (rs : List (Option PdfReference)) (rootObj rootObj1 : PdfObject)
      (kids : List PdfVariant),
      w0.run GetFilenameForFont calls = some (w, rs) ∧
      w.CreatePage tSize init = some (w1, none) ∧
      w.pageTree = some rootObj ∧ w1.pageTree = some rootObj1 ∧
      rootObj.GetKey "Kids" = some (.array kids) ∧
      rootObj1.GetKey "Kids"
        = some (.array (kids ++ [.reference (w.m_vecObjects.CreateObject none).2])) ∧
      rootObj1.GetKey "Count" = some (.number (kids.length + 1 : Nat)) ∧
      (kids ≠ [] → rootObj.GetKey "Count" = some (.number (kids.length : Nat))) ∧
      (kids = [] → rootObj.GetKey "Count" = none) := by
  obtain ⟨hcons0, _⟩ := Init_Consistent ftFailed baseError sDate w0 hInit
  obtain ⟨w, rs, hrun, hcons, _⟩ := run_Consistent GetFilenameForFont calls w0 _ hcons0
  obtain ⟨w1, hcall, hcons1, hrefs1, _⟩ := CreatePage_Consistent w _ hcons tSize init
  rw [if_pos hFail] at hcall
  obtain ⟨o, ho, hk⟩ := hcons.kids
  obtain ⟨o1, ho1, hk1⟩ := hcons1.kids
  have hne1 : w1.m_vecPageReferences ≠ [] := by rw [hrefs1]; simp
  obtain ⟨o2, ho2, hc2⟩ := hcons1.count hne1
  rw [ho1] at ho2
  rw [← Option.some.inj ho2] at hc2
  have hcount : o1.GetKey "Count"
      = some (.number ((w.m_vecPageReferences.map PdfVariant.reference).length + 1 : Nat)) := by
    rw [hc2, hrefs1]; simp
  refine ⟨w, w1, rs, o, o1, _, hrun, hcall, ?_, ?_, hk, ?_, hcount, ?_, ?_⟩
  · simp [PdfSimpleWriter.pageTree, hcons.pageTree, ho]
  · simp [PdfSimpleWriter.pageTree, hcons1.pageTree, ho1]
  · rw [hk1, hrefs1]; simp
  · intro hne
    have hrefs : w.m_vecPageReferences ≠ [] := by
      intro hnil; exact hne (by rw [hnil]; rfl)
    obtain ⟨o3, ho3, hc3⟩ := hcons.count hrefs
    rw [ho] at ho3
    rw [← Option.some.inj ho3] at hc3
    rw [hc3, List.length_map]
  · intro hnil
    exact hcons.noCount (List.map_eq_nil_iff.mp hnil) o ho

/-- C5, witness: after one page, the initializer of a second page fails. -/
theorem C5_witness :
    PdfSimpleWriter.new.Init false .ErrOk "D:20060101120000" = some (.ErrOk, exampleWriter) ∧
    (InitOutcome.mk true 0).IsError = true ∧
    ∃ (w w1 : PdfSimpleWriter) (rs : List (Option PdfReference)) (rootObj rootObj1 : PdfObject)
      (kids : List PdfVariant),
      exampleWriter.run exampleLocator [Call.CreatePage exampleA4 ⟨false, 1⟩] = some (w, rs) ∧
      w.CreatePage exampleA4 ⟨true, 0⟩ = some (w1, none) ∧
      w.pageTree = some rootObj ∧ w1.pageTree = some rootObj1 ∧
      rootObj.GetKey "Kids" = some (.array kids) ∧
      rootObj1.GetKey "Kids"
        = some (.array (kids ++ [.reference (w.m_vecObjects.CreateObject none).2])) ∧
      rootObj1.GetKey "Count" = some (.number (kids.length + 1 : Nat)) ∧
      (kids ≠ [] → rootObj.GetKey "Count" = some (.number (kids.length : Nat))) ∧
      (kids = [] → rootObj.GetKey "Count" = none) :=
  ⟨Init_example, rfl,
    C5_failed_page_keeps_tree_updates exampleLocator false .ErrOk "D:20060101120000"
      exampleWriter Init_example [Call.CreatePage exampleA4 ⟨false, 1⟩] exampleA4 ⟨true, 0⟩ rfl⟩

/-- C6, the code at the failing input: the locator resolves "Arial"; the first `CreateFont`
creates font object 4, its initializer fails and the call returns NULL, yet the font stays in
the font vector; the next `CreateFont` for the same name returns that very object 4 as its
result, creating nothing. -/
theorem C6_failed_font_returned_by_later_call :
    PdfSimpleWriter.new.Init false .ErrOk "D:20060101120000" = some (.ErrOk, exampleWriter) ∧
    (exampleWriter.CreateFont exampleLocator "Arial" true ⟨true, 0⟩ 4096).2 = none ∧
    (exampleWriter.CreateFont exampleLocator "Arial" true ⟨true, 0⟩ 4096).1.m_vecFonts
      = [⟨⟨4, 0⟩, "/fonts/arial.ttf", 4096⟩] ∧
    (exampleWriter.CreateFont exampleLocator "Arial" true ⟨true, 0⟩ 4096).1.CreateFont
        exampleLocator "Arial" true ⟨false, 0⟩ 8192
      = ((exampleWriter.CreateFont exampleLocator "Arial" true ⟨true, 0⟩ 4096).1,
          some ⟨4, 0⟩) :=
  ⟨Init_example, rfl, rfl, rfl⟩

/-- C7: starting from a writer whose font vector is empty (a new writer, or one after `Init`),
after any sequence of `CreateFont` calls no two entries of the font vector have the same
resolved path. -/
theorem C7_one_entry_per_path (GetFilenameForFont : String → String) (w : PdfSimpleWriter)
    (hEmpty : w.m_vecFonts = []) (fonts : List (String × Bool × InitOutcome × Nat)) :
    ∃ (w1 : PdfSimpleWriter) (rs : List (Option PdfReference)),
      w.run GetFilenameForFont
        (fonts.map (fun f => Call.CreateFont f.1 f.2.1 f.2.2.1 f.2.2.2)) = some (w1, rs) ∧
      (w1.m_vecFonts.map PdfFont.m_pMetrics).Nodup :=
  run_fonts_nodup GetFilenameForFont fonts w (by rw [hEmpty]; exact List.nodup_nil)

/-- C7, witness: three calls for two spellings of one font, the first with a failing
initializer, leave one entry. -/
theorem C7_witness :
    exampleWriter.m_vecFonts = [] ∧
    ∃ (w1 : PdfSimpleWriter) (rs : List (Option PdfReference)),
      exampleWriter.run exampleLocator
        ([("Arial", true, ⟨true, 1⟩, 4096), ("ArialMT", true, ⟨false, 1⟩, 8192),
          ("Arial", false, ⟨false, 1⟩, 12288)].map
            (fun f => Call.CreateFont f.1 f.2.1 f.2.2.1 f.2.2.2)) = some (w1, rs) ∧
      (w1.m_vecFonts.map PdfFont.m_pMetrics).Nodup :=
  ⟨rfl, C7_one_entry_per_path exampleLocator exampleWriter rfl
    [("Arial", true, ⟨true, 1⟩, 4096), ("ArialMT", true, ⟨false, 1⟩, 8192),
      ("Arial", false, ⟨false, 1⟩, 12288)]⟩

/-- C8, the code at the failing input: after `Init`, a `CreatePage` whose page initializer
fails has put the reference 4 0 of the new page into the root's Kids and then destroyed the
page with `delete pPage`. The store keeps a dangling pointer and has no object 4: the
reference in Kids names no object of the store, and the store is not well referenced. -/
theorem C8_failed_page_leaves_dangling_reference :
    PdfSimpleWriter.new.Init false .ErrOk "D:20060101120000" = some (.ErrOk, exampleWriter) ∧
    ∃ (w1 : PdfSimpleWriter) (rootObj : PdfObject),
      exampleWriter.run exampleLocator [Call.CreatePage exampleA4 ⟨true, 0⟩]
        = some (w1, [none]) ∧
      w1.pageTree = some rootObj ∧
      rootObj.GetKey "Kids" = some (.array [.reference ⟨4, 0⟩]) ∧
      w1.m_vecObjects.GetObject ⟨4, 0⟩ = none ∧
      w1.m_vecObjects.deleted = [⟨4, 0⟩] ∧
      ¬ w1.m_vecObjects.Contains ⟨4, 0⟩ ∧
      ¬ w1.m_vecObjects.WellReferenced := by
  refine ⟨Init_example, _,
    ⟨⟨3, 0⟩, [("Kids", .array [.reference ⟨4, 0⟩]), ("Count", .number 1),
      ("Type", .name "Pages")]⟩, rfl, rfl, rfl, rfl, rfl, ?_, ?_⟩
  · exact not_Contains_of_GetObject_none _ _ rfl
  · exact not_WellReferenced_of_dangling _ ⟨3, 0⟩ ⟨4, 0⟩
      ⟨⟨3, 0⟩, [("Kids", .array [.reference ⟨4, 0⟩]), ("Count", .number 1),
        ("Type", .name "Pages")]⟩
      "Kids" (.array [.reference ⟨4, 0⟩]) rfl (List.mem_cons_self _ _)
      (by simp [PdfVariant.references, PdfVariant.referencesOfList]) rfl

/-- C9: after a successful `Init` and any sequence of calls, every page that a `CreatePage`
call of the sequence returned holds, under Parent, the reference of the page-tree root, which
is the root object's own reference. -/
theorem C9_Parent_is_page_tree_root (GetFilenameForFont : String → String)
    (ftFailed : Bool) (baseError : EPdfError) (sDate : String) (w0 : PdfSimpleWriter)
    (hInit : PdfSimpleWriter.new.Init ftFailed baseError sDate = some (.ErrOk, w0))
    (calls : List Call) :
    ∃ (w : PdfSimpleWriter) (rs : List (Option PdfReference)) (rootObj : PdfObject),
      w0.run GetFilenameForFont calls = some (w, rs) ∧
      rs.length = calls.length ∧
      w.pageTree = some rootObj ∧
      w.m_pPageTree = some rootObj.Reference ∧
      ∀ c pPage, (c, some pPage) ∈ calls.zip rs → c.isCreatePage = true →
        ∃ pageObj, w.m_vecObjects.GetObject pPage = some pageObj ∧
          pageObj.GetKey "Parent" = some (.reference rootObj.Reference) := by
  obtain ⟨hcons0, _⟩ := Init_Consistent ftFailed baseError sDate w0 hInit
  obtain ⟨w, rs, hrun, hcons, _, _, _, hpages⟩ :=
    run_Consistent GetFilenameForFont calls w0 _ hcons0
  obtain ⟨o, ho, _⟩ := hcons.kids
  have href : o.Reference = ⟨3, 0⟩ := GetObject_reference _ _ _ ho
  refine ⟨w, rs, o, hrun, ?_, ?_, ?_, ?_⟩
  · exact run_length GetFilenameForFont calls w0 w rs hrun
  · simp [PdfSimpleWriter.pageTree, hcons.pageTree, ho]
  · rw [href]; exact hcons.pageTree
  · intro c p hzip hpage
    rw [href]
    exact hpages c p hzip hpage

/-- C9, witness: `Init`, then three A4 pages. -/
theorem C9_witness :
    PdfSimpleWriter.new.Init false .ErrOk "D:20060101120000" = some (.ErrOk, exampleWriter) ∧
    ∃ (w : PdfSimpleWriter) (rs : List (Option PdfReference)) (rootObj : PdfObject),
      exampleWriter.run exampleLocator
        [Call.CreatePage exampleA4 ⟨false, 1⟩, Call.CreatePage exampleA4 ⟨false, 1⟩,
          Call.CreatePage exampleA4 ⟨false, 1⟩] = some (w, rs) ∧
      rs.length = [Call.CreatePage exampleA4 ⟨false, 1⟩, Call.CreatePage exampleA4 ⟨false, 1⟩,
          Call.CreatePage exampleA4 ⟨false, 1⟩].length ∧
      w.pageTree = some rootObj ∧
      w.m_pPageTree = some rootObj.Reference ∧
      ∀ c pPage, (c, some pPage) ∈ [Call.CreatePage exampleA4 ⟨false, 1⟩,
          Call.CreatePage exampleA4 ⟨false, 1⟩, Call.CreatePage exampleA4 ⟨false, 1⟩].zip rs →
        c.isCreatePage = true →
        ∃ pageObj, w.m_vecObjects.GetObject pPage = some pageObj ∧
          pageObj.GetKey "Parent" = some (.reference rootObj.Reference) :=
  ⟨Init_example,
    C9_Parent_is_page_tree_root exampleLocator false .ErrOk "D:20060101120000" exampleWriter
      Init_example
      [Call.CreatePage exampleA4 ⟨false, 1⟩, Call.CreatePage exampleA4 ⟨false, 1⟩,
        Call.CreatePage exampleA4 ⟨false, 1⟩]⟩

/-- C10: after a successful `Init` the page-tree root is an object of the store, created by
it and tagged `/Type /Pages`; its Kids key holds the empty array; and the Catalog's Pages key
holds the root's reference. -/
theorem C10_Init_creates_page_tree_root (ftFailed : Bool) (baseError : EPdfError)
    (sDate : String) (w : PdfSimpleWriter)
    (hInit : PdfSimpleWriter.new.Init ftFailed baseError sDate = some (.ErrOk, w)) :
    ∃ (catalog : PdfReference) (rootObj catObj : PdfObject),
      w.pageTree = some rootObj ∧ w.m_pPageTree = some rootObj.Reference ∧
      rootObj ∈ w.m_vecObjects.m_vec ∧
      rootObj.Reference
        = ((PdfWriter.Init { PdfSimpleWriter.new with m_bInitDone := true }
            .ErrOk).2.m_vecObjects.CreateObject (some "Pages")).2 ∧
      rootObj.GetKey "Type" = some (.name "Pages") ∧
      rootObj.GetKey "Kids" = some (.array []) ∧
      w.m_pCatalog = some catalog ∧ w.m_vecObjects.GetObject catalog = some catObj ∧
      catObj.GetKey "Pages" = some (.reference rootObj.Reference) := by
  obtain ⟨hft, hbe⟩ := Init_cases ftFailed baseError sDate w hInit
  subst hft hbe
  rw [Init_eq] at hInit
  obtain ⟨-, rfl⟩ := Prod.mk.inj (Option.some.inj hInit)
  exact ⟨⟨1, 0⟩, ⟨⟨3, 0⟩, [("Kids", .array []), ("Type", .name "Pages")]⟩, _, rfl, rfl,
    by simp, rfl, rfl, rfl, rfl, rfl, rfl⟩

/-- C10, witness: `Init` on a new writer with FreeType and the base writer starting. -/
theorem C10_witness :
    PdfSimpleWriter.new.Init false .ErrOk "D:20060101120000" = some (.ErrOk, exampleWriter) ∧
    ∃ (catalog : PdfReference) (rootObj catObj : PdfObject),
      exampleWriter.pageTree = some rootObj ∧
      exampleWriter.m_pPageTree = some rootObj.Reference ∧
      rootObj ∈ exampleWriter.m_vecObjects.m_vec ∧
      rootObj.Reference
        = ((PdfWriter.Init { PdfSimpleWriter.new with m_bInitDone := true }
            .ErrOk).2.m_vecObjects.CreateObject (some "Pages")).2 ∧
      rootObj.GetKey "Type" = some (.name "Pages") ∧
      rootObj.GetKey "Kids" = some (.array []) ∧
      exampleWriter.m_pCatalog = some catalog ∧
      exampleWriter.m_vecObjects.GetObject catalog = some catObj ∧
      catObj.GetKey "Pages" = some (.reference rootObj.Reference) :=
  ⟨Init_example,
    C10_Init_creates_page_tree_root false .ErrOk "D:20060101120000" exampleWriter Init_example⟩

end PoDoFo
